import Mathlib

/-
  Verification development for the Google Drive retrieval subsystem of the
  chdc-review-automation repository.  The Python sources embedded here are
  src/drive/drive_downloader.py and src/drive/folder.py.  Network, HTML
  parsing (BeautifulSoup) and regular-expression engines are modelled
  explicitly: the specific regular expressions used by the code are
  implemented as executable matchers, and the results of BeautifulSoup
  parses are taken as structured inputs.
-/

namespace DriveSpec

/-- Character class `[a-zA-Z0-9_-]` used by every identifier-capturing
regular expression in `drive_downloader.py` and `folder.py`. -/
def idChar (c : Char) : Bool := c.isAlphanum || c == '_' || c == '-'

/-- Python substring test `pat in s`, on character lists. -/
def hasSub (pat : List Char) : List Char → Bool
  | [] => pat.isEmpty
  | c :: rest => pat.isPrefixOf (c :: rest) || hasSub pat rest

/-- Python substring test `pat in s` on strings. -/
def strIn (pat s : String) : Bool := hasSub pat.data s.data

/-- Embedding of `re.search(lit + r'([a-zA-Z0-9_-]+)', s)`: leftmost
occurrence of the literal `lit` that is immediately followed by at least one
identifier character; returns the greedy capture group. -/
def findLitId (lit : List Char) : List Char → Option (List Char)
  | [] => none
  | c :: rest =>
    if lit.isPrefixOf (c :: rest) then
      match ((c :: rest).drop lit.length).takeWhile idChar with
      | [] => findLitId lit rest
      | d :: ds => some (d :: ds)
    else findLitId lit rest

/-- Embedding of `re.search(r'[?&]id=([a-zA-Z0-9_-]+)', s)`
(pattern 3 of `_extract_file_id`). -/
def findQId : List Char → Option (List Char)
  | [] => none
  | c :: rest =>
    if c == '?' || c == '&' then
      if ['i', 'd', '='].isPrefixOf rest then
        match (rest.drop 3).takeWhile idChar with
        | [] => findQId rest
        | d :: ds => some (d :: ds)
      else findQId rest
    else findQId rest

/-- `GoogleDriveDownloader._extract_file_id` (drive_downloader.py lines
267-281): the four patterns tried in order, first match wins; `None` when
no pattern matches. -/
def extract_file_id (url : String) : Option String :=
  match findLitId "/file/d/".data url.data with
  | some cap => some (String.mk cap)
  | none =>
    match findLitId "/folders/".data url.data with
    | some cap => some (String.mk cap)
    | none =>
      match findQId url.data with
      | some cap => some (String.mk cap)
      | none => (findLitId "/open?id=".data url.data).map String.mk

/-- ASCII lower-casing of one character, as `str.lower` acts on the ASCII
range (the URLs and MIME strings handled by the code are ASCII). -/
def lowerChar (c : Char) : Char :=
  if c.isUpper then Char.ofNat (c.toNat + 32) else c

/-- Python `s.lower()` on strings. -/
def pyLower (s : String) : String := String.mk (s.data.map lowerChar)

/-- `GoogleDriveDownloader._is_folder` (drive_downloader.py lines 283-285):
`'/folders/' in url.lower() or '/drive/folders/' in url.lower()`. -/
def is_folder (url : String) : Bool :=
  strIn "/folders/" (pyLower url) || strIn "/drive/folders/" (pyLower url)

/-- Resource kind determined by `download` (drive_downloader.py line 1111). -/
inductive Kind where
  | File : Kind
  | Folder : Kind
deriving DecidableEq, Repr

/-- The classification portion of `GoogleDriveDownloader.download`
(drive_downloader.py lines 1084-1118): extract the identifier; `none`
models the fatal `UnrecognizedUrl` outcome (return False); otherwise the
kind is Folder exactly when `_is_folder` holds on the URL. -/
def classify (url : String) : Option (String × Kind) :=
  match extract_file_id url with
  | none => none
  | some fid => some (fid, if is_folder url then Kind.Folder else Kind.File)

/-! ### urlencode and the interstitial download form -/

/-- UTF-8 byte sequence of one character (as used by `urllib.parse.quote_plus`
when percent-encoding). -/
def utf8Bytes (c : Char) : List Nat :=
  let n := c.toNat
  if n < 0x80 then [n]
  else if n < 0x800 then [0xC0 + n / 0x40, 0x80 + n % 0x40]
  else if n < 0x10000 then
    [0xE0 + n / 0x1000, 0x80 + (n / 0x40) % 0x40, 0x80 + n % 0x40]
  else
    [0xF0 + n / 0x40000, 0x80 + (n / 0x1000) % 0x40,
     0x80 + (n / 0x40) % 0x40, 0x80 + n % 0x40]

/-- Upper-case hexadecimal digit, for percent-encoding. -/
def hexDigit (n : Nat) : Char :=
  if n < 10 then Char.ofNat (48 + n) else Char.ofNat (55 + n)

/-- `urllib.parse.quote_plus` on one character: the always-safe characters
(ASCII letters, digits, `_`, `.`, `-`, `~`) pass through, a space becomes
`+`, everything else is percent-encoded byte-wise. -/
def quotePlusChar (c : Char) : List Char :=
  if c == ' ' then ['+']
  else if c.isAlphanum || c == '_' || c == '.' || c == '-' || c == '~' then [c]
  else ((utf8Bytes c).map (fun b => ['%', hexDigit (b / 16), hexDigit (b % 16)])).flatten

/-- `urllib.parse.quote_plus` on a string. -/
def quotePlus (s : String) : List Char := (s.data.map quotePlusChar).flatten

/-- Python-dict insertion on an association list: a repeated key overwrites
the stored value in place, a fresh key is appended (dict insertion order). -/
def dictInsert {α : Type} (k : String) (v : α) :
    List (String × α) → List (String × α)
  | [] => [(k, v)]
  | (k0, v0) :: rest =>
    if k0 == k then (k0, v) :: rest else (k0, v0) :: dictInsert k v rest

/-- Join percent-encoded `k=v` pairs with `&`. -/
def joinAmp : List (List Char) → List Char
  | [] => []
  | [x] => x
  | x :: y :: rest => x ++ '&' :: joinAmp (y :: rest)

/-- `urllib.parse.urlencode(params)` over a dict represented as an ordered
association list. -/
def urlencode (params : List (String × String)) : String :=
  String.mk (joinAmp (params.map fun kv => quotePlus kv.1 ++ '=' :: quotePlus kv.2))

/-- One `<input>` tag of the interstitial confirmation form, as seen by
BeautifulSoup: its `type`, `name` and `value` attributes (each possibly
absent). -/
structure FormInput where
  itype : Option String
  name : Option String
  value : Option String
deriving DecidableEq, Repr

/-- The `<form id="download-form">` element found by BeautifulSoup: its
`action` attribute and all its `<input>` descendants in document order. -/
structure HtmlForm where
  action : Option String
  inputs : List FormInput
deriving DecidableEq, Repr

/-- `GoogleDriveDownloader._parse_download_form` (drive_downloader.py lines
287-313; folder.py lines 367-387 is an identical copy).  The argument is
the BeautifulSoup lookup `soup.find('form', {'id': 'download-form'})`
(`none` when the body has no such form).  The code iterates
`form.find_all('input')` — every input tag regardless of its `type` — and
keeps the pairs whose name and value are both present and non-empty. -/
def parse_download_form (form : Option HtmlForm) :
    Option (String × List (String × String)) :=
  match form with
  | none => none
  | some f =>
    let params := f.inputs.foldl (fun acc inp =>
      match inp.name, inp.value with
      | some n, some v => if n != "" && v != "" then dictInsert n v acc else acc
      | _, _ => acc) []
    some (f.action.getD "", params)

/-- URL composition performed after a successful form parse
(drive_downloader.py lines 352-357, folder.py lines 314-316):
`full_url = f"\x7bdownload_url\x7d?\x7bquery_string\x7d"` with
`query_string = urlencode(params)`. -/
def composeFormUrl (action : String) (params : List (String × String)) : String :=
  action ++ "?" ++ urlencode params

/-- `resolve_direct_url` on a body containing the confirmation form: parse
the form and compose the follow-up URL (`none` when no form is found). -/
def resolve_direct_url (form : Option HtmlForm) : Option String :=
  match parse_download_form form with
  | none => none
  | some fd => some (composeFormUrl fd.1 fd.2)

/-- Modelled from the spec (claim C5 refinement): the URL composed of the
form action plus only the *hidden* input fields' name/value pairs, following
the spec sentence "extracts the form action and all hidden field name/value
pairs".  Compared against `resolve_direct_url`, which keeps every input. -/
def specHiddenFieldsUrl (f : HtmlForm) : String :=
  let params := f.inputs.foldl (fun acc inp =>
    match inp.itype, inp.name, inp.value with
    | some "hidden", some n, some v =>
      if n != "" && v != "" then dictInsert n v acc else acc
    | _, _, _ => acc) []
  composeFormUrl (f.action.getD "") params

/-! ### Folder listing strategies -/

/-- One listing entry as built by all three strategies in folder.py. -/
structure ListingEntry where
  id : String
  name : String
  mimeType : String
  size : Nat
  isFolder : Bool
deriving DecidableEq, Repr

/-- The canonical folder MIME type (folder.py lines 128, 277). -/
def folderMime : String := "application/vnd.google-apps.folder"

/-- One raw JSON item of the structured listing response: the fields the
code reads (`id`, `title`, `mimeType`, `fileSize`), each possibly absent.
`fileSize` arrives as a decimal string; it is modelled already parsed. -/
structure RawItem where
  id : String
  title : Option String
  mimeType : Option String
  fileSize : Option Nat
deriving DecidableEq, Repr

/-- Entry construction of `_fetch_via_query_api` (folder.py lines 121-129):
name defaults to `"unnamed"`, MIME to `application/octet-stream`, size to 0,
and `isFolder` compares the raw `mimeType` against the canonical folder
MIME type. -/
def queryApiEntry (it : RawItem) : ListingEntry :=
  { id := it.id
    name := it.title.getD "unnamed"
    mimeType := it.mimeType.getD "application/octet-stream"
    size := it.fileSize.getD 0
    isFolder := it.mimeType == some folderMime }

/-- Entry construction of `_fetch_via_batch_api` (folder.py lines 270-278),
a literal copy of the query-API construction. -/
def batchApiEntry (it : RawItem) : ListingEntry :=
  { id := it.id
    name := it.title.getD "unnamed"
    mimeType := it.mimeType.getD "application/octet-stream"
    size := it.fileSize.getD 0
    isFolder := it.mimeType == some folderMime }

/-- `_fetch_via_query_api` (folder.py lines 78-140): `none` models every
empty-handed outcome (non-200 status, JSON decode failure, exception);
otherwise the raw item list is mapped through `queryApiEntry`. -/
def fetch_via_query_api (raw : Option (List RawItem)) : List ListingEntry :=
  match raw with
  | none => []
  | some items => items.map queryApiEntry

/-- `_fetch_via_batch_api` (folder.py lines 236-286), same shape. -/
def fetch_via_batch_api (raw : Option (List RawItem)) : List ListingEntry :=
  match raw with
  | none => []
  | some items => items.map batchApiEntry

/-- Entry construction for HTML patterns 1 and 2 (folder.py lines 176-182
and 195-201): size 0 and `isFolder` true when the lower-cased MIME string
contains `"folder"` as a substring. -/
def htmlEntryPat12 (fileId nm mime : String) : ListingEntry :=
  { id := fileId, name := nm, mimeType := mime, size := 0
    isFolder := strIn "folder" (pyLower mime) }

/-- Entry construction for HTML pattern 3 (folder.py lines 212-218):
octet-stream MIME and `isFolder` unconditionally false. -/
def htmlEntryPat3 (fileId nm : String) : ListingEntry :=
  { id := fileId, name := nm, mimeType := "application/octet-stream"
    size := 0, isFolder := false }

/-- `_fetch_via_html_parsing` (folder.py lines 142-234), with the three
regex result lists as inputs (`m1`, `m2`: (id, name, mime) triples from
patterns 1 and 2; `m3`: (id, name) pairs from pattern 3).  Pattern-1 hits
are kept when id and name are truthy and `len(id) > 20`; pattern-2 and
pattern-3 hits additionally skip ids already collected; a final pass
de-duplicates by id keeping the first occurrence.  `htmlOk = false` models
a non-200 page fetch or an exception (returns `[]`). -/
def fetch_via_html_parsing (htmlOk : Bool)
    (m1 m2 : List (String × String × String)) (m3 : List (String × String)) :
    List ListingEntry :=
  if !htmlOk then []
  else
    let items1 := m1.foldl (fun acc t =>
      if t.1 != "" && t.2.1 != "" && t.1.length > 20 then
        acc ++ [htmlEntryPat12 t.1 t.2.1 t.2.2]
      else acc) []
    let items2 := m2.foldl (fun acc t =>
      if t.1 != "" && t.2.1 != "" && t.1.length > 20 &&
          !(acc.any fun e => e.id == t.1) then
        acc ++ [htmlEntryPat12 t.1 t.2.1 t.2.2]
      else acc) items1
    let items3 := m3.foldl (fun acc t =>
      if t.1 != "" && t.2 != "" && t.1.length > 20 &&
          !(acc.any fun e => e.id == t.1) then
        acc ++ [htmlEntryPat3 t.1 t.2]
      else acc) items2
    items3.foldl (fun acc e =>
      if acc.any (fun x => x.id == e.id) then acc else acc ++ [e]) []

/-- `_get_folder_contents` (folder.py lines 43-76) given the three strategy
results: first non-empty result wins, empty list when all three are empty
(never an exception).  Also returns how many times each strategy was
invoked, in source order (query, html, batch). -/
def get_folder_contents (qres hres bres : List ListingEntry) :
    List ListingEntry × Nat × Nat × Nat :=
  if !qres.isEmpty then (qres, 1, 0, 0)
  else if !hres.isEmpty then (hres, 1, 1, 0)
  else if !bres.isEmpty then (bres, 1, 1, 1)
  else ([], 1, 1, 1)

/-! ### HTTP responses, local file system, and the two file downloaders -/

/-- The facts about an HTML response body that the downloaders inspect.
Each field is the value of the corresponding Python expression on the body:
substring tests, the BeautifulSoup form lookup, and the
`confirm=`/`uuid=` token regex searches. -/
structure HtmlBody where
  /-- `'download-form' in html_content` -/
  hasDownloadForm : Bool
  /-- `'virus' in html_content.lower()` -/
  hasVirus : Bool
  /-- `soup.find('form', \x7b'id': 'download-form'\x7d)` -/
  form : Option HtmlForm
  /-- capture of `re.search(r'confirm=([a-zA-Z0-9_-]+)', html_content)` -/
  confirmTok : Option String
  /-- capture of `re.search(r'uuid=([a-zA-Z0-9_-]+)', html_content)` -/
  uuidTok : Option String
  /-- `'accounts.google.com' in html_content` -/
  hasAccounts : Bool
  /-- `'accounts.google.com' in response.text[:1000]` -/
  previewHasAccounts : Bool
  /-- `'quota' in response.text[:1000].lower()` -/
  previewHasQuota : Bool
deriving DecidableEq, Repr

/-- A stubbed HTTP response.  `raises` models `session.get` raising an
exception; `chunks` lists the byte counts of the chunks yielded by
`response.iter_content` (requests re-serves the cached content when the
body was already read for the HTML checks). -/
structure Response where
  raises : Bool
  status : Nat
  /-- `response.headers.get('Content-Type', '')` -/
  contentType : String
  body : HtmlBody
  /-- `response.headers.get('Content-Disposition')` -/
  disposition : Option String
  /-- `len(response.content)` -/
  contentLen : Nat
  chunks : List Nat
deriving DecidableEq, Repr

/-- Local file system state: files as an association list from path to
byte size, plus the set of created directories. -/
structure FS where
  files : List (String × Nat)
  dirs : List String
deriving DecidableEq, Repr

/-- `open(path, 'wb')` followed by writing `size` bytes: truncating
overwrite when the path exists, creation otherwise. -/
def fsWrite (fs : FS) (path : String) (size : Nat) : FS :=
  if fs.files.any (fun kv => kv.1 == path) then
    { fs with files := fs.files.map (fun kv => if kv.1 == path then (kv.1, size) else kv) }
  else
    { fs with files := fs.files ++ [(path, size)] }

/-- `path.unlink(missing_ok=True)`. -/
def fsUnlink (fs : FS) (path : String) : FS :=
  { fs with files := fs.files.filter (fun kv => !(kv.1 == path)) }

/-- Size of the file at `path`, `none` when absent. -/
def fsLookup (fs : FS) (path : String) : Option Nat :=
  (fs.files.find? (fun kv => kv.1 == path)).map Prod.snd

/-- `dir.mkdir(parents=True, exist_ok=True)` (parent chain elided). -/
def fsMkdir (fs : FS) (dir : String) : FS :=
  if fs.dirs.any (fun d => d == dir) then fs else { fs with dirs := fs.dirs ++ [dir] }

/-- The accumulators of one `FolderDownloader` instance
(folder.py lines 15-19). -/
structure DlState where
  downloaded_files : List String
  failed_files : List String
  total_size : Nat
deriving DecidableEq, Repr

/-- `re.sub(r'[<>:"/\\|?*]', '_', name)`: the character class of
folder.py line 292. -/
def unsafeChar (c : Char) : Bool :=
  c == '<' || c == '>' || c == ':' || c == Char.ofNat 34 || c == '/' ||
  c == '\\' || c == '|' || c == '?' || c == '*'

/-- Filename sanitisation of `_download_single_file` (folder.py line 292). -/
def sanitizeName (s : String) : String :=
  String.mk (s.data.map fun c => if unsafeChar c then '_' else c)

/-- The initial download URL
`f'https://drive.google.com/uc?export=download&id=\x7bfile_id\x7d'`. -/
def ucUrl (fid : String) : String :=
  "https://drive.google.com/uc?export=download&id=" ++ fid

/-- The params dict of the confirm/uuid fallback (drive_downloader.py lines
376-382, folder.py lines 323-328): `\x7b'id': fid, 'export': 'download'\x7d`
plus the captured tokens when present. -/
def altParams (fid : String) (confirmTok uuidTok : Option String) :
    List (String × String) :=
  let p := dictInsert "export" "download" (dictInsert "id" fid [])
  let p := match confirmTok with
    | some c => dictInsert "confirm" c p
    | none => p
  match uuidTok with
  | some u => dictInsert "uuid" u p
  | none => p

/-- The fallback download URL against the alternate host. -/
def altUrl (fid : String) (confirmTok uuidTok : Option String) : String :=
  "https://drive.usercontent.google.com/download?" ++
    urlencode (altParams fid confirmTok uuidTok)

/-- Whether the interstitial negotiation of a first HTML response signals a
redirect to a resolved URL, and that URL: either the parsed form or the
confirm/uuid token fallback (shared by both downloaders). -/
def interstitialRedirect (fid : String) (b : HtmlBody) : Option String :=
  match parse_download_form b.form with
  | some fd => some (composeFormUrl fd.1 fd.2)
  | none =>
    match b.confirmTok, b.uuidTok with
    | none, none => none
    | ct, ut => some (altUrl fid ct ut)

/-- The virus-scan negotiation block shared verbatim by
`_download_single_file` (folder.py lines 307-331) and
`_download_file_direct` (drive_downloader.py lines 334-390): when the
first response is HTML and carries the interstitial markers, issue exactly
one follow-up request against the resolved URL; otherwise keep the first
response.  Returns the response to stream from and the full request
trace. -/
def negotiate (session : String → Response) (fid : String) (r1 : Response) :
    Response × List String :=
  let url1 := ucUrl fid
  if strIn "text/html" (pyLower r1.contentType) then
    if r1.body.hasDownloadForm || r1.body.hasVirus then
      match interstitialRedirect fid r1.body with
      | some u2 => (session u2, [url1, u2])
      | none => (r1, [url1])
    else (r1, [url1])
  else (r1, [url1])

/-- Result of one `_download_single_file` call: the returned boolean, the
updated accumulators, the updated file system, and the list of download
request URLs issued. -/
structure DlOut where
  ok : Bool
  st : DlState
  fs : FS
  reqs : List String
deriving DecidableEq, Repr

/-- `FolderDownloader._download_single_file` (folder.py lines 288-365) over
a stubbed session.  A raising request takes the `except` branch, which
records the raw (unsanitised) name and leaves the file system untouched;
a non-200 final response records the sanitised name; otherwise the file is
written with the streamed byte count, and a zero-byte result is unlinked
and recorded as failed. -/
def download_single_file (session : String → Response) (fid fname : String)
    (outDir : String) (st : DlState) (fs : FS) : DlOut :=
  let safe := sanitizeName fname
  let url1 := ucUrl fid
  let r1 := session url1
  if r1.raises then
    ⟨false, { st with failed_files := st.failed_files ++ [fname] }, fs, [url1]⟩
  else
    let step2 := negotiate session fid r1
    let resp := step2.1
    let reqs := step2.2
    if resp.raises then
      ⟨false, { st with failed_files := st.failed_files ++ [fname] }, fs, reqs⟩
    else if resp.status != 200 then
      ⟨false, { st with failed_files := st.failed_files ++ [safe] }, fs, reqs⟩
    else
      let outFile := outDir ++ "/" ++ safe
      let downloaded := resp.chunks.sum
      let fs1 := fsWrite fs outFile downloaded
      if downloaded > 0 then
        ⟨true,
         { st with downloaded_files := st.downloaded_files ++ [outFile],
                   total_size := st.total_size + downloaded }, fs1, reqs⟩
      else
        ⟨false, { st with failed_files := st.failed_files ++ [safe] },
         fsUnlink fs1 outFile, reqs⟩

/-- Characters excluded by the capture class `[^"\';\n]+` of the
Content-Disposition filename regex. -/
def dispStop (c : Char) : Bool :=
  c == Char.ofNat 34 || c == Char.ofNat 39 || c == ';' || c == '\n'

/-- Embedding of `re.search(r'filename\*?=["\']?([^"\';\n]+)', d)`
(drive_downloader.py line 423): leftmost `filename`, optional `*`, `=`,
optional opening quote, then a non-empty capture of allowed characters. -/
def findFilenameTok : List Char → Option (List Char)
  | [] => none
  | c :: rest =>
    if "filename".data.isPrefixOf (c :: rest) then
      let after := (c :: rest).drop 8
      let after := if after.head? == some '*' then after.drop 1 else after
      if after.head? == some '=' then
        let after := after.drop 1
        let after :=
          if (after.head?.map fun ch =>
              ch == Char.ofNat 34 || ch == Char.ofNat 39).getD false
          then after.drop 1 else after
        match after.takeWhile (fun ch => !dispStop ch) with
        | [] => findFilenameTok rest
        | d :: ds => some (d :: ds)
      else findFilenameTok rest
    else findFilenameTok rest

/-- Python whitespace stripped by `str.strip()`. -/
def pySpace (c : Char) : Bool :=
  c == ' ' || c == '\t' || c == '\n' || c == '\r' ||
  c == Char.ofNat 11 || c == Char.ofNat 12

/-- Strip characters satisfying `p` from both ends. -/
def stripEnds (p : Char → Bool) (l : List Char) : List Char :=
  ((l.dropWhile p).reverse.dropWhile p).reverse

/-- The RFC 5987 marker `UTF-8` followed by two apostrophes. -/
def rfc5987Prefix : List Char :=
  ['U', 'T', 'F', '-', '8', Char.ofNat 39, Char.ofNat 39]

/-- Filename extraction from a Content-Disposition header value
(drive_downloader.py lines 420-428): regex capture, `.strip()`,
`.strip('"\')`, and removal of a leading RFC 5987 `UTF-8` marker. -/
def dispositionFilename (d : String) : Option String :=
  match findFilenameTok d.data with
  | none => none
  | some cap =>
    let t := stripEnds pySpace cap
    let t := stripEnds (fun c => c == Char.ofNat 34 || c == Char.ofNat 39) t
    let t := if rfc5987Prefix.isPrefixOf t then t.drop 7 else t
    some (String.mk t)

/-- Filename cleaning of the direct path (drive_downloader.py line 434):
`filename.replace('/', '_').replace('\\', '_')` — only slashes. -/
def cleanSlashes (s : String) : String :=
  String.mk (s.data.map fun c => if c == '/' || c == '\\' then '_' else c)

/-- Full filename resolution of `_download_file_direct`
(drive_downloader.py lines 418-434): Content-Disposition capture when
present and non-empty, else `download_<file_id>`, then slash cleaning. -/
def directFilename (fid : String) (disposition : Option String) : String :=
  let fname :=
    match disposition with
    | none => "download_" ++ fid
    | some d =>
      match dispositionFilename d with
      | none => "download_" ++ fid
      | some nm => if nm == "" then "download_" ++ fid else nm
  cleanSlashes fname

/-- `GoogleDriveDownloader._download_file_direct` (drive_downloader.py
lines 315-502) over a stubbed session: returns the boolean result, the
file system, and the issued request URLs.  The early HTML checks (auth
redirect, quota, small unexpected HTML page) return failure without
touching the file system; a zero-byte stream unlinks the written file. -/
def download_file_direct (session : String → Response) (fid : String)
    (outPath : String) (outIsDir : Bool) (fs : FS) :
    Bool × FS × List String :=
  let url1 := ucUrl fid
  let r1 := session url1
  if r1.raises then (false, fs, [url1])
  else
    let html1 := strIn "text/html" (pyLower r1.contentType)
    if html1 && !(r1.body.hasVirus || r1.body.hasDownloadForm) &&
        r1.body.hasAccounts then
      (false, fs, [url1])
    else
      let step2 := negotiate session fid r1
      let resp := step2.1
      let reqs := step2.2
      if resp.raises then (false, fs, reqs)
      else if resp.status != 200 then (false, fs, reqs)
      else
        let html2 := strIn "text/html" (pyLower resp.contentType)
        if html2 && resp.body.previewHasAccounts then (false, fs, reqs)
        else if html2 && resp.body.previewHasQuota then (false, fs, reqs)
        else if html2 && resp.contentLen < 10000 then (false, fs, reqs)
        else
          let fname := directFilename fid resp.disposition
          let outFile := if outIsDir then outPath ++ "/" ++ fname else outPath
          let downloaded := resp.chunks.sum
          let fs1 := fsWrite fs outFile downloaded
          if downloaded == 0 then (false, fsUnlink fs1 outFile, reqs)
          else (true, fs1, reqs)

/-- `GoogleDriveDownloader.download` (drive_downloader.py lines 1060-1120):
create the output directory, extract the identifier (`None` is the fatal
UnrecognizedUrl outcome), ensure a valid session (`authOk` models the
validate/re-authenticate sequence succeeding), then dispatch on
`_is_folder`.  `folderDl` stubs `_download_folder_as_zip`. -/
def download (session : String → Response) (folderDl : String → Bool)
    (authOk : Bool) (url outPath : String) (fs : FS) : Bool × FS :=
  let fs := fsMkdir fs outPath
  match extract_file_id url with
  | none => (false, fs)
  | some fid =>
    if !authOk then (false, fs)
    else if is_folder url then (folderDl fid, fs)
    else
      let r := download_file_direct session fid outPath true fs
      (r.1, r.2.1)

/-- `batch_download` (drive_downloader.py lines 1285-1325): sequential loop
building the per-URL result dict (`results[url] = downloader.download(...)`);
the inter-item sleep is elided. -/
def batch_download (session : String → Response) (folderDl : String → Bool)
    (authOk : Bool) (urls : List String) (outPath : String) (fs : FS) :
    List (String × Bool) × FS :=
  urls.foldl (fun acc url =>
    let r := download session folderDl authOk url outPath acc.2
    (dictInsert url r.1 acc.1, r.2)) ([], fs)

/-! ### Recursive folder traversal -/

/-- A remote folder tree: identifier, display name, the (id, name) pairs of
its immediate files, and its immediate subfolders. -/
inductive RTree where
  | node (id : String) (name : String) (files : List (String × String))
      (subs : List RTree)

/-- Display name of a tree node. -/
def RTree.name : RTree → String
  | .node _ n _ _ => n

/-- Identifier of a tree node. -/
def RTree.id : RTree → String
  | .node i _ _ _ => i

/-- The listing entries returned for a node by a listing stubbed to
succeed: its files (folder flag false) followed by its subfolders (folder
flag true), as consumed by `download_folder_recursive`. -/
def nodeItems (files : List (String × String)) (subs : List RTree) :
    List ListingEntry :=
  files.map (fun f => ListingEntry.mk f.1 f.2 "application/octet-stream" 0 false)
    ++ subs.map (fun s => ListingEntry.mk s.id s.name folderMime 0 true)

mutual

/-- `FolderDownloader.download_folder_recursive` (folder.py lines 389-457)
with `_get_folder_contents` stubbed to return each node's children: create
the directory for the current relative path, return False on an empty
listing, otherwise download every file entry via `_download_single_file`
and recurse into every subfolder entry (ignoring recursive return values,
as the source does).  Rate-limit sleeps are elided. -/
def download_folder_recursive (session : String → Response) (out : String) :
    RTree → String → DlState → FS → Bool × DlState × FS
  | RTree.node _ _ files subs, cur, st, fs =>
    let dir := if cur == "" then out else out ++ "/" ++ cur
    let fs1 := fsMkdir fs dir
    let items := nodeItems files subs
    if items.isEmpty then (false, st, fs1)
    else
      let fitems := items.filter (fun e => !e.isFolder)
      let after := fitems.foldl (fun acc e =>
        let r := download_single_file session e.id e.name dir acc.1 acc.2
        (r.st, r.fs)) (st, fs1)
      let after2 := walkSubfolders session out cur subs after.1 after.2
      (true, after2.1, after2.2)

/-- The subfolder loop of `download_folder_recursive` (folder.py lines
436-449): extend the relative path with the subfolder's display name and
recurse. -/
def walkSubfolders (session : String → Response) (out cur : String) :
    List RTree → DlState → FS → DlState × FS
  | [], st, fs => (st, fs)
  | t :: rest, st, fs =>
    let sp := if cur == "" then t.name else cur ++ "/" ++ t.name
    let r := download_folder_recursive session out t sp st fs
    walkSubfolders session out cur rest r.2.1 r.2.2

end

mutual

/-- Number of files in a tree (spec side, for claim C1). -/
def countFiles : RTree → Nat
  | .node _ _ files subs => files.length + countFilesList subs

/-- Number of files in a forest. -/
def countFilesList : List RTree → Nat
  | [] => 0
  | t :: rest => countFiles t + countFilesList rest

end

mutual

/-- The remote relative paths of all files of a tree, joined under the
output root exactly as the traversal joins them (spec side, for claim C1):
the files of the current folder in listing order, then the subfolders in
order, depth first. -/
def remotePaths (out : String) : RTree → String → List String
  | .node _ _ files subs, cur =>
    let dir := if cur == "" then out else out ++ "/" ++ cur
    files.map (fun f => dir ++ "/" ++ f.2) ++ remotePathsList out cur subs

/-- Remote relative paths of a forest. -/
def remotePathsList (out cur : String) : List RTree → List String
  | [] => []
  | t :: rest =>
    let sp := if cur == "" then t.name else cur ++ "/" ++ t.name
    remotePaths out t sp ++ remotePathsList out cur rest

end

/-- The output path a `_download_file_direct` call writes to: directory
plus resolved filename of the negotiated response. -/
def directOutFile (session : String → Response) (fid outPath : String)
    (outIsDir : Bool) : String :=
  let resp := (negotiate session fid (session (ucUrl fid))).1
  if outIsDir then outPath ++ "/" ++ directFilename fid resp.disposition
  else outPath

/-- An HTML body with no interstitial content (for concrete stubs). -/
def plainBody : HtmlBody := ⟨false, false, none, none, none, false, false, false⟩

/-- A plainly successful binary response streaming 3 bytes. -/
def plainOk : Response :=
  ⟨false, 200, "application/octet-stream", plainBody, none, 3, [3]⟩

/-- A stub session answering every request with `plainOk`. -/
def sessPlain : String → Response := fun _ => plainOk

/-- The virus-scan interstitial body of a concrete stub: both markers set
and a download form with action `https://host/dl` and one hidden field. -/
def virusBody : HtmlBody :=
  ⟨true, true,
   some ⟨some "https://host/dl", [⟨some "hidden", some "id", some "A"⟩]⟩,
   none, none, false, false, false⟩

/-- The HTML interstitial response carrying `virusBody`. -/
def virusResp : Response :=
  ⟨false, 200, "text/html; charset=utf-8", virusBody, none, 20000, []⟩

/-- A stub session serving the interstitial on the initial download URL for
identifier `A` and a plain success on every other URL. -/
def sessV : String → Response :=
  fun url => if url == ucUrl "A" then virusResp else plainOk

/-- A successful binary response whose Content-Disposition filename
contains the filesystem-unsafe character `?`. -/
def dispResp : Response :=
  ⟨false, 200, "application/pdf", plainBody,
   some "attachment; filename=a?b.txt", 7, [7]⟩

/-- A stub session answering every request with `dispResp`. -/
def sessDisp : String → Response := fun _ => dispResp

/-- A successful binary response streaming zero bytes. -/
def zeroResp : Response :=
  ⟨false, 200, "application/octet-stream", plainBody, none, 0, []⟩

/-- A stub session answering every request with `zeroResp`. -/
def sessZero : String → Response := fun _ => zeroResp

/-- A response that lets a download succeed outright: no exception, a
non-HTML content type, status 200 and a positive streamed byte count.
This is what "stubbed to succeed" means for one file download. -/
def GoodResp (r : Response) : Prop :=
  r.raises = false ∧ strIn "text/html" (pyLower r.contentType) = false ∧
  r.status = 200 ∧ 0 < r.chunks.sum

mutual

/-- The display names of all files in a tree (spec side, claim C1). -/
def treeFileNames : RTree → List String
  | .node _ _ files subs => files.map Prod.snd ++ forestFileNames subs

/-- The display names of all files in a forest. -/
def forestFileNames : List RTree → List String
  | [] => []
  | t :: rest => treeFileNames t ++ forestFileNames rest

end

/-- A concrete 3-file, 1-subfolder tree for witnesses. -/
def tinyTree : RTree :=
  RTree.node "root" "r" [("f1", "a.txt"), ("f2", "b.txt")]
    [RTree.node "sub" "s" [("f3", "c.txt")] []]

/-! ## Claims -/

/-- Claim C2: for every folder identifier, the listing resolver tries the
structured query, markup extraction and batch strategies in that fixed
order and returns the first non-empty result; when the structured-query
strategy is non-empty the other two are not invoked (call counts (1,0,0)),
and when all three are empty it returns the empty list (never an
exception). -/
theorem C2_listing_fallback_order (qres hres bres : List ListingEntry) :
    (qres ≠ [] → get_folder_contents qres hres bres = (qres, 1, 0, 0)) ∧
    (qres = [] → hres ≠ [] →
      get_folder_contents qres hres bres = (hres, 1, 1, 0)) ∧
    (qres = [] → hres = [] → bres ≠ [] →
      get_folder_contents qres hres bres = (bres, 1, 1, 1)) ∧
    (qres = [] → hres = [] → bres = [] →
      get_folder_contents qres hres bres = ([], 1, 1, 1)) := by
  rcases qres with _ | ⟨q, qs⟩ <;> rcases hres with _ | ⟨h, hs⟩ <;>
    rcases bres with _ | ⟨b, bs⟩ <;> simp [get_folder_contents]

/-- Witness for C2 at concrete strategy results. -/
theorem C2_listing_fallback_order_witness :
    get_folder_contents [ListingEntry.mk "x" "n" "m" 0 false] [] [] =
      ([ListingEntry.mk "x" "n" "m" 0 false], 1, 0, 0) ∧
    get_folder_contents [] [] [] = ([], 1, 1, 1) :=
  ⟨(C2_listing_fallback_order _ _ _).1 (by simp),
   (C2_listing_fallback_order [] [] []).2.2.2 rfl rfl rfl⟩

/-- The negotiation step issues the initial request, plus exactly one
follow-up request at the resolved URL when (and only when) the first
response is HTML, carries an interstitial marker, and a redirect URL is
resolved. -/
theorem negotiate_reqs_spec (session : String → Response) (fid : String)
    (r1 : Response) :
    ((negotiate session fid r1).2 = [ucUrl fid] ∧
        ((strIn "text/html" (pyLower r1.contentType) &&
          (r1.body.hasDownloadForm || r1.body.hasVirus)) = false ∨
         interstitialRedirect fid r1.body = none)) ∨
    (∃ u, interstitialRedirect fid r1.body = some u ∧
        (strIn "text/html" (pyLower r1.contentType) &&
          (r1.body.hasDownloadForm || r1.body.hasVirus)) = true ∧
        (negotiate session fid r1).2 = [ucUrl fid, u] ∧
        (negotiate session fid r1).1 = session u) := by
  unfold negotiate
  cases h1 : strIn "text/html" (pyLower r1.contentType)
  · simp [h1]
  · cases h2 : (r1.body.hasDownloadForm || r1.body.hasVirus)
    · simp [h1, h2]
    · cases h3 : interstitialRedirect fid r1.body with
      | none => simp [h1, h2, h3]
      | some u => right; exact ⟨u, rfl, by simp, by simp [h1, h2, h3], by simp [h1, h2, h3]⟩

/-- The request trace of `_download_single_file` is the initial request
alone when it raises, and otherwise the negotiation trace. -/
theorem download_single_file_reqs (session : String → Response)
    (fid fname outDir : String) (st : DlState) (fs : FS) :
    (download_single_file session fid fname outDir st fs).reqs =
      if (session (ucUrl fid)).raises then [ucUrl fid]
      else (negotiate session fid (session (ucUrl fid))).2 := by
  unfold download_single_file
  cases h1 : (session (ucUrl fid)).raises <;> simp only [h1] <;> simp
  all_goals repeat' split
  all_goals simp

/-- The request trace of `_download_file_direct` is the initial request
alone when it raises or hits the early authentication exit, and otherwise
the negotiation trace. -/
theorem download_file_direct_reqs (session : String → Response)
    (fid outPath : String) (outIsDir : Bool) (fs : FS) :
    (download_file_direct session fid outPath outIsDir fs).2.2 =
      if (session (ucUrl fid)).raises then [ucUrl fid]
      else if (strIn "text/html" (pyLower (session (ucUrl fid)).contentType) &&
          !((session (ucUrl fid)).body.hasVirus ||
            (session (ucUrl fid)).body.hasDownloadForm) &&
          (session (ucUrl fid)).body.hasAccounts) then [ucUrl fid]
      else (negotiate session fid (session (ucUrl fid))).2 := by
  unfold download_file_direct
  cases h1 : (session (ucUrl fid)).raises <;> simp only [h1] <;> simp
  all_goals repeat' split
  all_goals simp

/-- Exhaustive case analysis of `_download_single_file`: the call raised on
a request, got a non-200 final response, streamed a positive byte count, or
streamed zero bytes; each case fixes the returned value completely. -/
theorem download_single_file_cases (session : String → Response)
    (fid fname outDir : String) (st : DlState) (fs : FS) :
    ((session (ucUrl fid)).raises = true ∧
      download_single_file session fid fname outDir st fs =
        ⟨false, { st with failed_files := st.failed_files ++ [fname] }, fs,
          [ucUrl fid]⟩) ∨
    ((session (ucUrl fid)).raises = false ∧
      (negotiate session fid (session (ucUrl fid))).1.raises = true ∧
      download_single_file session fid fname outDir st fs =
        ⟨false, { st with failed_files := st.failed_files ++ [fname] }, fs,
          (negotiate session fid (session (ucUrl fid))).2⟩) ∨
    ((session (ucUrl fid)).raises = false ∧
      (negotiate session fid (session (ucUrl fid))).1.raises = false ∧
      (negotiate session fid (session (ucUrl fid))).1.status ≠ 200 ∧
      download_single_file session fid fname outDir st fs =
        ⟨false, { st with failed_files := st.failed_files ++ [sanitizeName fname] },
          fs, (negotiate session fid (session (ucUrl fid))).2⟩) ∨
    ((session (ucUrl fid)).raises = false ∧
      (negotiate session fid (session (ucUrl fid))).1.raises = false ∧
      (negotiate session fid (session (ucUrl fid))).1.status = 200 ∧
      0 < (negotiate session fid (session (ucUrl fid))).1.chunks.sum ∧
      download_single_file session fid fname outDir st fs =
        ⟨true,
          { st with
            downloaded_files := st.downloaded_files ++
              [outDir ++ "/" ++ sanitizeName fname],
            total_size := st.total_size +
              (negotiate session fid (session (ucUrl fid))).1.chunks.sum },
          fsWrite fs (outDir ++ "/" ++ sanitizeName fname)
            (negotiate session fid (session (ucUrl fid))).1.chunks.sum,
          (negotiate session fid (session (ucUrl fid))).2⟩) ∨
    ((session (ucUrl fid)).raises = false ∧
      (negotiate session fid (session (ucUrl fid))).1.raises = false ∧
      (negotiate session fid (session (ucUrl fid))).1.status = 200 ∧
      (negotiate session fid (session (ucUrl fid))).1.chunks.sum = 0 ∧
      download_single_file session fid fname outDir st fs =
        ⟨false, { st with failed_files := st.failed_files ++ [sanitizeName fname] },
          fsUnlink (fsWrite fs (outDir ++ "/" ++ sanitizeName fname) 0)
            (outDir ++ "/" ++ sanitizeName fname),
          (negotiate session fid (session (ucUrl fid))).2⟩) := by
  cases h1 : (session (ucUrl fid)).raises
  · cases h2 : (negotiate session fid (session (ucUrl fid))).1.raises
    · by_cases h3 : (negotiate session fid (session (ucUrl fid))).1.status = 200
      · by_cases h4 : 0 < (negotiate session fid (session (ucUrl fid))).1.chunks.sum
        · refine Or.inr (Or.inr (Or.inr (Or.inl ⟨rfl, rfl, h3, h4, ?_⟩)))
          unfold download_single_file
          simp [h1, h2, h3, h4, bne_iff_ne]
        · have h4' : (negotiate session fid (session (ucUrl fid))).1.chunks.sum = 0 := by
            omega
          refine Or.inr (Or.inr (Or.inr (Or.inr ⟨rfl, rfl, h3, h4', ?_⟩)))
          unfold download_single_file
          simp [h1, h2, h3, h4', bne_iff_ne]
      · refine Or.inr (Or.inr (Or.inl ⟨rfl, rfl, h3, ?_⟩))
        unfold download_single_file
        simp [h1, h2, h3, bne_iff_ne]
    · refine Or.inr (Or.inl ⟨rfl, rfl, ?_⟩)
      unfold download_single_file
      simp [h1, h2]
  · refine Or.inl ⟨rfl, ?_⟩
    unfold download_single_file
    simp [h1]

set_option maxHeartbeats 1000000 in
/-- Outcome analysis of `_download_file_direct`: every call either fails
leaving the file system untouched, succeeds having written the streamed
positive byte count to the resolved output path, or fails on a zero-byte
stream having unlinked the just-written file. -/
theorem download_file_direct_outcome (session : String → Response)
    (fid outPath : String) (outIsDir : Bool) (fs : FS) :
    ((download_file_direct session fid outPath outIsDir fs).1 = false ∧
      (download_file_direct session fid outPath outIsDir fs).2.1 = fs) ∨
    ((download_file_direct session fid outPath outIsDir fs).1 = true ∧
      0 < (negotiate session fid (session (ucUrl fid))).1.chunks.sum ∧
      (download_file_direct session fid outPath outIsDir fs).2.1 =
        fsWrite fs (directOutFile session fid outPath outIsDir)
          (negotiate session fid (session (ucUrl fid))).1.chunks.sum) ∨
    ((download_file_direct session fid outPath outIsDir fs).1 = false ∧
      (negotiate session fid (session (ucUrl fid))).1.chunks.sum = 0 ∧
      (download_file_direct session fid outPath outIsDir fs).2.1 =
        fsUnlink
          (fsWrite fs (directOutFile session fid outPath outIsDir) 0)
          (directOutFile session fid outPath outIsDir)) := by
  unfold download_file_direct directOutFile
  cases h1 : (session (ucUrl fid)).raises
  · cases h2 : (negotiate session fid (session (ucUrl fid))).1.raises
    · cases h4 : (negotiate session fid (session (ucUrl fid))).1.chunks.sum
      all_goals simp [h1, h2, h4]
      all_goals repeat' split
      all_goals simp_all
    · simp [h1, h2]
      split <;> simp
  · simp [h1]

/-- Writing a file makes it present with the written size. -/
theorem fsLookup_fsWrite_self (fs : FS) (p : String) (n : Nat) :
    fsLookup (fsWrite fs p n) p = some n := by
  obtain ⟨files, dirs⟩ := fs
  simp only [fsWrite, fsLookup]
  by_cases h : files.any (fun kv => kv.1 == p)
  · simp only [h, if_true]
    induction files with
    | nil => simp at h
    | cons kv rest ih =>
      by_cases hk : kv.1 == p
      · have : kv.1 = p := by simpa using hk
        simp [hk, List.find?, this]
      · simp only [List.any_cons, hk, Bool.false_or] at h
        have hk' : (kv.1 == p) = false := by
          cases hkk : kv.1 == p
          · rfl
          · exact absurd hkk hk
        simp only [List.map_cons, hk', if_false, Bool.false_eq_true]
        rw [List.find?_cons_of_neg _ (by simp [hk'])]
        exact ih h
  · simp only [h, if_false]
    induction files with
    | nil => simp [List.find?]
    | cons kv rest ih =>
      simp only [List.any_cons, Bool.or_eq_true, not_or] at h
      have hk : (kv.1 == p) = false := by
        cases hkk : kv.1 == p
        · rfl
        · exact absurd hkk h.1
      simp only [List.cons_append, List.find?, hk]
      exact ih (by simp [h.2])

/-- Unlinking a file removes it. -/
theorem fsLookup_fsUnlink_self (fs : FS) (p : String) :
    fsLookup (fsUnlink fs p) p = none := by
  simp only [fsLookup, fsUnlink]
  have : (fs.files.filter fun kv => !(kv.1 == p)).find? (fun kv => kv.1 == p)
      = none := by
    rw [List.find?_eq_none]
    intro x hx
    have hx2 := (List.mem_filter.mp hx).2
    simpa using hx2
  simp [this]

/-- The negotiation trace contains at most two requests. -/
theorem negotiate_trace_len (session : String → Response) (fid : String)
    (r1 : Response) : (negotiate session fid r1).2.length ≤ 2 := by
  unfold negotiate
  repeat' split
  all_goals simp

/-- When the first response is HTML with an interstitial marker and a
redirect URL is resolved, the negotiation issues exactly the follow-up
request at that URL. -/
theorem negotiate_redirect (session : String → Response) (fid : String)
    (r1 : Response) (u : String)
    (h2 : strIn "text/html" (pyLower r1.contentType) = true)
    (h3 : (r1.body.hasDownloadForm || r1.body.hasVirus) = true)
    (hu : interstitialRedirect fid r1.body = some u) :
    negotiate session fid r1 = (session u, [ucUrl fid, u]) := by
  unfold negotiate
  simp [h2, h3, hu]

/-- Inserting a key absent from an association list appends the pair. -/
theorem dictInsert_notMem {α : Type} (k : String) (v : α)
    (l : List (String × α)) (h : k ∉ l.map Prod.fst) :
    dictInsert k v l = l ++ [(k, v)] := by
  induction l with
  | nil => rfl
  | cons kv rest ih =>
    obtain ⟨h1, h2⟩ : ¬k = kv.1 ∧ k ∉ rest.map Prod.fst := by simpa using h
    obtain ⟨k0, v0⟩ := kv
    simp only [dictInsert]
    rw [if_neg (by simpa using fun e => h1 e.symm)]
    simp [ih h2]

/-- Folding Python-dict insertion over pairs with fresh, pairwise distinct
keys appends them in order. -/
theorem foldl_dictInsert_append {α : Type} (pairs : List (String × α)) :
    ∀ acc : List (String × α),
    (∀ kv ∈ pairs, kv.1 ∉ acc.map Prod.fst) →
    (pairs.map Prod.fst).Nodup →
    pairs.foldl (fun a kv => dictInsert kv.1 kv.2 a) acc = acc ++ pairs := by
  induction pairs with
  | nil => intro acc _ _; simp
  | cons kv rest ih =>
    intro acc hdisj hnodup
    simp only [List.foldl_cons]
    rw [dictInsert_notMem kv.1 kv.2 acc (hdisj kv (by simp))]
    rw [List.map_cons] at hnodup
    obtain ⟨hhd, hnd⟩ := List.nodup_cons.mp hnodup
    rw [ih (acc ++ [kv]) ?_ hnd]
    · simp
    · intro kv2 hkv2
      simp only [List.map_append, List.mem_append]
      push_neg
      refine ⟨fun hmem => (hdisj kv2 (by simp [hkv2])) hmem, ?_⟩
      simp only [List.map_cons, List.map_nil, List.mem_singleton]
      intro he
      exact hhd (he ▸ List.mem_map_of_mem Prod.fst hkv2)

/-- The input fold of `parse_download_form`, on inputs that all carry a
non-empty name and value, is dict insertion of the (name, value) pairs. -/
theorem parse_form_inputs_foldl (ty : String × String → Option String)
    (pairs : List (String × String))
    (hne : ∀ kv ∈ pairs, kv.1 ≠ "" ∧ kv.2 ≠ "") (acc : List (String × String)) :
    (pairs.map fun kv =>
        FormInput.mk (ty kv) (some kv.1) (some kv.2)).foldl
      (fun acc inp =>
        match inp.name, inp.value with
        | some n, some v => if n != "" && v != "" then dictInsert n v acc else acc
        | _, _ => acc) acc
    = pairs.foldl (fun a kv => dictInsert kv.1 kv.2 a) acc := by
  rw [List.foldl_map]
  apply List.foldl_ext
  intro a kv hkv
  obtain ⟨h1, h2⟩ := hne kv hkv
  simp [h1, h2]

/-- A form whose inputs have non-hidden types but named values, exposing
that `_parse_download_form` keeps every input regardless of its `type`
attribute (claim C5). -/
def c5Form : HtmlForm :=
  ⟨some "https://host/download",
   [⟨some "hidden", some "id", some "X"⟩,
    ⟨some "text", some "foo", some "bar"⟩,
    ⟨some "hidden", some "confirm", some "t"⟩]⟩

/-- Counterexample to claim C5 as stated: on an interstitial body whose
download form contains a non-hidden input (`<input type="text" name="foo"
value="bar">`) between the hidden fields, the code composes the URL from
all inputs, not only from the hidden field name/value pairs as the claim
asserts. -/
theorem C5_counterexample :
    resolve_direct_url (some c5Form) =
      some "https://host/download?id=X&foo=bar&confirm=t" ∧
    specHiddenFieldsUrl c5Form = "https://host/download?id=X&confirm=t" ∧
    resolve_direct_url (some c5Form) ≠ some (specHiddenFieldsUrl c5Form) := by
  decide

/-- Claim C5 amended: for every HTML interstitial body containing a
download confirmation form, `resolve_direct_url` extracts the form action
and the name/value pairs of all named inputs (hidden or not — the form's
fields are all hidden in practice) and returns the exact literal URL
composed of the action plus those fields URL-encoded as the query
string. -/
theorem C5_resolve_direct_url_amended (action : String)
    (ty : String × String → Option String) (pairs : List (String × String))
    (hne : ∀ kv ∈ pairs, kv.1 ≠ "" ∧ kv.2 ≠ "")
    (hnodup : (pairs.map Prod.fst).Nodup) :
    resolve_direct_url
        (some ⟨some action, pairs.map fun kv => ⟨ty kv, some kv.1, some kv.2⟩⟩)
      = some (action ++ "?" ++ urlencode pairs) := by
  unfold resolve_direct_url parse_download_form composeFormUrl
  simp only [Option.getD_some]
  rw [parse_form_inputs_foldl ty pairs hne []]
  rw [foldl_dictInsert_append pairs [] (by simp) hnodup]
  simp

/-- Witness for the amended C5 at the spec's own example: action
`https://host/download` with hidden fields id=X and confirm=t composes
`https://host/download?id=X&confirm=t`. -/
theorem C5_resolve_direct_url_amended_witness :
    resolve_direct_url (some ⟨some "https://host/download",
      [⟨some "hidden", some "id", some "X"⟩,
       ⟨some "hidden", some "confirm", some "t"⟩]⟩)
      = some "https://host/download?id=X&confirm=t" := by
  have h := C5_resolve_direct_url_amended "https://host/download"
    (fun _ => some "hidden") [("id", "X"), ("confirm", "t")]
    (by decide) (by decide)
  have e1 : ([("id", "X"), ("confirm", "t")].map fun kv =>
      FormInput.mk (some "hidden") (some kv.1) (some kv.2)) =
      [FormInput.mk (some "hidden") (some "id") (some "X"),
       FormInput.mk (some "hidden") (some "confirm") (some "t")] := by decide
  have e2 : "https://host/download" ++ "?" ++
      urlencode [("id", "X"), ("confirm", "t")] =
      "https://host/download?id=X&confirm=t" := by decide
  rw [e1, e2] at h
  exact h

/-- Counterexample to claim C8: the markup-extraction strategy classifies
by the substring test `'folder' in mime.lower()`, not by equality with the
canonical folder MIME type.  A pattern-1 regex hit
`["AAAAAAAAAAAAAAAAAAAAA","notes","application/x-folder"]` (21-character
id, MIME matching the pattern's `[^"]*application[^"]*` group) produces an
entry with `isFolder = true` whose MIME kind is not the canonical folder
MIME type. -/
theorem C8_counterexample :
    fetch_via_html_parsing true
        [("AAAAAAAAAAAAAAAAAAAAA", "notes", "application/x-folder")] [] [] =
      [ListingEntry.mk "AAAAAAAAAAAAAAAAAAAAA" "notes"
        "application/x-folder" 0 true] ∧
    "application/x-folder" ≠ folderMime := by decide

/-- Claim C8 amended: entries from the structured-query and batch
strategies have `isFolder` true iff the raw MIME kind equals the canonical
folder MIME type; the markup-extraction strategy instead sets `isFolder`
iff the lower-cased MIME string contains `"folder"` as a substring
(patterns 1-2; unconditionally false for pattern-3 entries), which holds
for the canonical folder MIME type but also for other MIME strings. -/
theorem C8_isFolder_amended (it : RawItem) (fileId nm mime : String) :
    ((queryApiEntry it).isFolder = true ↔ it.mimeType = some folderMime) ∧
    ((batchApiEntry it).isFolder = true ↔ it.mimeType = some folderMime) ∧
    (htmlEntryPat12 fileId nm mime).isFolder = strIn "folder" (pyLower mime) ∧
    (htmlEntryPat12 fileId nm folderMime).isFolder = true ∧
    (htmlEntryPat3 fileId nm).isFolder = false := by
  refine ⟨?_, ?_, rfl, ?_, rfl⟩
  · simp [queryApiEntry]
  · simp [batchApiEntry]
  · show strIn "folder" (pyLower folderMime) = true
    decide

/-- Claim C3: after every download call, exactly one of two outcomes holds:
on success a non-empty file is present at the output path; on failure the
output path is absent from disk (in particular a zero-byte stream is
treated as failure and the partial file deleted) and, in the folder path
which keeps accumulators, the file's name is recorded in the failed set.
Stated for both `_download_single_file` and `_download_file_direct`,
assuming the output path was not already present. -/
theorem C3_zero_byte_dichotomy (session : String → Response)
    (fid fname outDir outPath : String) (outIsDir : Bool) (st : DlState)
    (fs : FS)
    (hfresh1 : fsLookup fs (outDir ++ "/" ++ sanitizeName fname) = none)
    (hfresh2 : fsLookup fs (directOutFile session fid outPath outIsDir) = none) :
    ((download_single_file session fid fname outDir st fs).ok = true →
      ∃ n, 0 < n ∧
        fsLookup (download_single_file session fid fname outDir st fs).fs
          (outDir ++ "/" ++ sanitizeName fname) = some n) ∧
    ((download_single_file session fid fname outDir st fs).ok = false →
      fsLookup (download_single_file session fid fname outDir st fs).fs
          (outDir ++ "/" ++ sanitizeName fname) = none ∧
      (sanitizeName fname ∈
          (download_single_file session fid fname outDir st fs).st.failed_files ∨
        fname ∈
          (download_single_file session fid fname outDir st fs).st.failed_files)) ∧
    ((download_file_direct session fid outPath outIsDir fs).1 = true →
      ∃ n, 0 < n ∧
        fsLookup (download_file_direct session fid outPath outIsDir fs).2.1
          (directOutFile session fid outPath outIsDir) = some n) ∧
    ((download_file_direct session fid outPath outIsDir fs).1 = false →
      fsLookup (download_file_direct session fid outPath outIsDir fs).2.1
        (directOutFile session fid outPath outIsDir) = none) := by
  refine ⟨?_, ?_, ?_, ?_⟩
  · intro hok
    rcases download_single_file_cases session fid fname outDir st fs with
      ⟨_, hd⟩ | ⟨_, _, hd⟩ | ⟨_, _, _, hd⟩ | ⟨_, _, _, h4, hd⟩ | ⟨_, _, _, _, hd⟩
    · rw [hd] at hok; simp at hok
    · rw [hd] at hok; simp at hok
    · rw [hd] at hok; simp at hok
    · rw [hd]
      exact ⟨_, h4, fsLookup_fsWrite_self fs _ _⟩
    · rw [hd] at hok; simp at hok
  · intro hok
    rcases download_single_file_cases session fid fname outDir st fs with
      ⟨_, hd⟩ | ⟨_, _, hd⟩ | ⟨_, _, _, hd⟩ | ⟨_, _, _, h4, hd⟩ | ⟨_, _, _, _, hd⟩
    · rw [hd]
      exact ⟨hfresh1, Or.inr (by simp)⟩
    · rw [hd]
      exact ⟨hfresh1, Or.inr (by simp)⟩
    · rw [hd]
      exact ⟨hfresh1, Or.inl (by simp)⟩
    · rw [hd] at hok; simp at hok
    · rw [hd]
      exact ⟨fsLookup_fsUnlink_self _ _, Or.inl (by simp)⟩
  · intro hok
    rcases download_file_direct_outcome session fid outPath outIsDir fs with
      ⟨hf, _⟩ | ⟨_, hpos, hfs⟩ | ⟨hf, _, _⟩
    · rw [hok] at hf; simp at hf
    · rw [hfs]
      exact ⟨_, hpos, fsLookup_fsWrite_self fs _ _⟩
    · rw [hok] at hf; simp at hf
  · intro hok
    rcases download_file_direct_outcome session fid outPath outIsDir fs with
      ⟨_, hfs⟩ | ⟨ht, _, _⟩ | ⟨_, _, hfs⟩
    · rw [hfs]; exact hfresh2
    · rw [hok] at ht; simp at ht
    · rw [hfs]
      exact fsLookup_fsUnlink_self _ _

/-- Witness for C3: a stubbed success writes a 3-byte file; a stubbed
zero-byte stream fails with the name recorded and the file absent. -/
theorem C3_zero_byte_dichotomy_witness :
    (∃ n, 0 < n ∧
      fsLookup (download_single_file sessPlain "A" "f.txt" "out"
          ⟨[], [], 0⟩ ⟨[], []⟩).fs ("out" ++ "/" ++ sanitizeName "f.txt")
        = some n) ∧
    (fsLookup (download_single_file sessZero "A" "f.txt" "out"
          ⟨[], [], 0⟩ ⟨[], []⟩).fs ("out" ++ "/" ++ sanitizeName "f.txt")
        = none ∧
      (sanitizeName "f.txt" ∈ (download_single_file sessZero "A" "f.txt" "out"
          ⟨[], [], 0⟩ ⟨[], []⟩).st.failed_files ∨
        "f.txt" ∈ (download_single_file sessZero "A" "f.txt" "out"
          ⟨[], [], 0⟩ ⟨[], []⟩).st.failed_files)) :=
  ⟨(C3_zero_byte_dichotomy sessPlain "A" "f.txt" "out" "out" true
      ⟨[], [], 0⟩ ⟨[], []⟩ (by decide) (by decide)).1 (by decide),
   (C3_zero_byte_dichotomy sessZero "A" "f.txt" "out" "out" true
      ⟨[], [], 0⟩ ⟨[], []⟩ (by decide) (by decide)).2.1 (by decide)⟩

/-- Claim C9: each single-file download issues at most two download
requests — the initial one, plus exactly one follow-up against the
resolved URL when the interstitial handler signals a redirect — in both
`_download_single_file` and `_download_file_direct`. -/
theorem C9_at_most_two_requests (session : String → Response)
    (fid fname outDir outPath : String) (outIsDir : Bool) (st : DlState)
    (fs : FS) :
    (download_single_file session fid fname outDir st fs).reqs.length ≤ 2 ∧
    (download_file_direct session fid outPath outIsDir fs).2.2.length ≤ 2 ∧
    ((session (ucUrl fid)).raises = false →
      strIn "text/html" (pyLower (session (ucUrl fid)).contentType) = true →
      ((session (ucUrl fid)).body.hasDownloadForm ||
          (session (ucUrl fid)).body.hasVirus) = true →
      ∀ u, interstitialRedirect fid (session (ucUrl fid)).body = some u →
        (download_single_file session fid fname outDir st fs).reqs =
            [ucUrl fid, u] ∧
        (download_file_direct session fid outPath outIsDir fs).2.2 =
            [ucUrl fid, u]) := by
  refine ⟨?_, ?_, ?_⟩
  · rw [download_single_file_reqs]
    split
    · simp
    · exact negotiate_trace_len _ _ _
  · rw [download_file_direct_reqs]
    split
    · simp
    · split
      · simp
      · exact negotiate_trace_len _ _ _
  · intro h1 h2 h3 u hu
    have h3' : ((session (ucUrl fid)).body.hasVirus ||
        (session (ucUrl fid)).body.hasDownloadForm) = true := by
      rw [Bool.or_comm]; exact h3
    constructor
    · rw [download_single_file_reqs, if_neg (by simp [h1])]
      rw [negotiate_redirect session fid _ u h2 h3 hu]
    · rw [download_file_direct_reqs, if_neg (by simp [h1]),
        if_neg (by simp [h3'])]
      rw [negotiate_redirect session fid _ u h2 h3 hu]

/-- Witness for C9: a stubbed interstitial with a parsed form produces the
two-request trace ending at the composed form URL. -/
theorem C9_at_most_two_requests_witness :
    (download_single_file sessV "A" "f.txt" "out" ⟨[], [], 0⟩ ⟨[], []⟩).reqs =
        [ucUrl "A", "https://host/dl?id=A"] ∧
    (download_file_direct sessV "A" "out" true ⟨[], []⟩).2.2 =
        [ucUrl "A", "https://host/dl?id=A"] :=
  (C9_at_most_two_requests sessV "A" "f.txt" "out" "out" true
      ⟨[], [], 0⟩ ⟨[], []⟩).2.2
    (by decide) (by decide) (by decide) "https://host/dl?id=A" (by decide)

/-- Claim C10: every `_download_single_file` call appends exactly one entry
to exactly one accumulator — the output path to `downloaded_files` on a
true return, the file's (possibly sanitised) name to `failed_files` on a
false return — and `total_size` grows (by a positive byte count) only on
the success path; hence downloaded plus failed counts grow by exactly one
per attempt. -/
theorem C10_accumulator_invariant (session : String → Response)
    (fid fname outDir : String) (st : DlState) (fs : FS) :
    ((download_single_file session fid fname outDir st fs).ok = true →
      (download_single_file session fid fname outDir st fs).st.downloaded_files
          = st.downloaded_files ++ [outDir ++ "/" ++ sanitizeName fname] ∧
      (download_single_file session fid fname outDir st fs).st.failed_files
          = st.failed_files ∧
      ∃ n, 0 < n ∧
        (download_single_file session fid fname outDir st fs).st.total_size
          = st.total_size + n) ∧
    ((download_single_file session fid fname outDir st fs).ok = false →
      (download_single_file session fid fname outDir st fs).st.downloaded_files
          = st.downloaded_files ∧
      (download_single_file session fid fname outDir st fs).st.total_size
          = st.total_size ∧
      ((download_single_file session fid fname outDir st fs).st.failed_files
          = st.failed_files ++ [sanitizeName fname] ∨
        (download_single_file session fid fname outDir st fs).st.failed_files
          = st.failed_files ++ [fname])) ∧
    (download_single_file session fid fname outDir st fs).st.downloaded_files.length
        + (download_single_file session fid fname outDir st fs).st.failed_files.length
      = st.downloaded_files.length + st.failed_files.length + 1 := by
  rcases download_single_file_cases session fid fname outDir st fs with
    ⟨_, hd⟩ | ⟨_, _, hd⟩ | ⟨_, _, _, hd⟩ | ⟨_, _, _, h4, hd⟩ | ⟨_, _, _, _, hd⟩
  · rw [hd]
    exact ⟨by simp, fun _ => ⟨rfl, rfl, Or.inr rfl⟩, by simp; omega⟩
  · rw [hd]
    exact ⟨by simp, fun _ => ⟨rfl, rfl, Or.inr rfl⟩, by simp; omega⟩
  · rw [hd]
    exact ⟨by simp, fun _ => ⟨rfl, rfl, Or.inl rfl⟩, by simp; omega⟩
  · rw [hd]
    exact ⟨fun _ => ⟨rfl, rfl, ⟨_, h4, rfl⟩⟩, by simp, by simp; omega⟩
  · rw [hd]
    exact ⟨by simp, fun _ => ⟨rfl, rfl, Or.inl rfl⟩, by simp; omega⟩

/-- Witness for C10: on a stubbed 3-byte success from empty accumulators,
the downloaded list gains exactly the output path and the counts sum
to one. -/
theorem C10_accumulator_invariant_witness :
    (download_single_file sessPlain "A" "f.txt" "out"
        ⟨[], [], 0⟩ ⟨[], []⟩).st.downloaded_files = ["out/f.txt"] ∧
    (download_single_file sessPlain "A" "f.txt" "out"
          ⟨[], [], 0⟩ ⟨[], []⟩).st.downloaded_files.length +
        (download_single_file sessPlain "A" "f.txt" "out"
          ⟨[], [], 0⟩ ⟨[], []⟩).st.failed_files.length = 1 := by
  have h := C10_accumulator_invariant sessPlain "A" "f.txt" "out"
    ⟨[], [], 0⟩ ⟨[], []⟩
  constructor
  · rw [(h.1 (by decide)).1]
    decide
  · have h3 := h.2.2
    simpa using h3

/-- Counterexample to claim C7 as stated: in the direct path, only `/` and
`\` are substituted — a Content-Disposition filename `a?b.txt` is written
verbatim, keeping the filesystem-unsafe `?`, and nothing is written at the
substituted name `a_b.txt`.  (The claimed middle resolution step — the
provided display name — also exists in neither path: the direct path
receives no display name, and the folder path never consults
Content-Disposition.) -/
theorem C7_counterexample :
    download_file_direct sessDisp "FID1" "out" true ⟨[], []⟩ =
      (true, ⟨[("out/a?b.txt", 7)], []⟩, [ucUrl "FID1"]) ∧
    fsLookup (download_file_direct sessDisp "FID1" "out" true ⟨[], []⟩).2.1
      "out/a_b.txt" = none := by decide

/-- Claim C7 amended: in the direct path the local filename is the
Content-Disposition-derived name (decoded, RFC 5987-aware) when present and
non-empty, else the synthesized `download_<identifier>`, with only `/` and
`\` substituted by `_`; in the folder path the filename is always the
provided display name with each of the characters `<>:"/\|?*` substituted
by `_`, and Content-Disposition is not consulted. -/
theorem C7_filename_resolution_amended (session : String → Response)
    (fid fname outDir d nm : String) (st : DlState) (fs : FS) :
    directFilename fid none = cleanSlashes ("download_" ++ fid) ∧
    (dispositionFilename d = some nm → nm ≠ "" →
      directFilename fid (some d) = cleanSlashes nm) ∧
    (dispositionFilename d = none →
      directFilename fid (some d) = cleanSlashes ("download_" ++ fid)) ∧
    ((download_single_file session fid fname outDir st fs).ok = true →
      (download_single_file session fid fname outDir st fs).st.downloaded_files
        = st.downloaded_files ++ [outDir ++ "/" ++ sanitizeName fname]) ∧
    (∀ c ∈ (sanitizeName fname).data, unsafeChar c = false) := by
  refine ⟨rfl, ?_, ?_, ?_, ?_⟩
  · intro h1 h2
    unfold directFilename
    dsimp only
    rw [h1]
    simp [h2]
  · intro h1
    unfold directFilename
    dsimp only
    rw [h1]
  · intro hok
    rcases download_single_file_cases session fid fname outDir st fs with
      ⟨_, hd⟩ | ⟨_, _, hd⟩ | ⟨_, _, _, hd⟩ | ⟨_, _, _, _, hd⟩ | ⟨_, _, _, _, hd⟩
    · rw [hd] at hok; simp at hok
    · rw [hd] at hok; simp at hok
    · rw [hd] at hok; simp at hok
    · rw [hd]
    · rw [hd] at hok; simp at hok
  · intro c hc
    simp only [sanitizeName, List.mem_map] at hc
    obtain ⟨a, _, ha⟩ := hc
    by_cases hu : unsafeChar a = true
    · rw [if_pos hu] at ha
      rw [ha.symm]
      decide
    · rw [if_neg hu] at ha
      rw [ha.symm]
      simpa using hu

/-- Witness for the amended C7: the concrete disposition header resolves
to its captured filename, and an absent header synthesizes
`download_<identifier>`. -/
theorem C7_filename_resolution_amended_witness :
    directFilename "FID1" (some "attachment; filename=a?b.txt") = "a?b.txt" ∧
    directFilename "FID1" none = "download_FID1" := by
  have h := C7_filename_resolution_amended sessPlain "FID1" "f" "out"
    "attachment; filename=a?b.txt" "a?b.txt" ⟨[], [], 0⟩ ⟨[], []⟩
  constructor
  · rw [h.2.1 (by decide) (by decide)]
    decide
  · rw [h.1]
    decide

/-- Membership in the keys after a Python-dict insertion. -/
theorem mem_keys_dictInsert {α : Type} (k k' : String) (v : α)
    (l : List (String × α)) :
    k ∈ (dictInsert k' v l).map Prod.fst ↔ k = k' ∨ k ∈ l.map Prod.fst := by
  induction l with
  | nil => simp [dictInsert]
  | cons kv rest ih =>
    obtain ⟨k0, v0⟩ := kv
    simp only [dictInsert]
    by_cases h : k0 = k'
    · rw [if_pos (by simpa using h)]
      subst h
      simp
    · rw [if_neg (by simpa using h)]
      simp only [List.map_cons, List.mem_cons, ih]
      tauto

/-- Every requested URL ends up among the result keys of the batch fold. -/
theorem batch_keys_aux (session : String → Response) (folderDl : String → Bool)
    (authOk : Bool) (outPath : String) :
    ∀ (urls : List String) (acc : List (String × Bool)) (fs : FS) (url : String),
      url ∈ urls ∨ url ∈ acc.map Prod.fst →
      url ∈ (urls.foldl (fun acc2 u =>
          let r := download session folderDl authOk u outPath acc2.2
          (dictInsert u r.1 acc2.1, r.2)) (acc, fs)).1.map Prod.fst := by
  intro urls
  induction urls with
  | nil =>
    intro acc fs url h
    rcases h with h | h
    · simp at h
    · simpa using h
  | cons u rest ih =>
    intro acc fs url h
    simp only [List.foldl_cons]
    apply ih
    rcases h with h | h
    · rcases List.mem_cons.mp h with he | hm
      · right
        rw [mem_keys_dictInsert]
        exact Or.inl he
      · exact Or.inl hm
    · right
      rw [mem_keys_dictInsert]
      exact Or.inr h

/-- Claim C6: `batch_download` attempts every requested URL and returns a
success/failure map with an entry for every requested URL (it never raises
— the embedding is a total function — and never drops a URL); concretely,
on a batch of three URLs whose second is malformed, with transport stubbed
to succeed, it returns true, false, true in order. -/
theorem C6_batch_download_total (session : String → Response)
    (folderDl : String → Bool) (authOk : Bool) (urls : List String)
    (outPath : String) (fs : FS) :
    (∀ url ∈ urls,
      url ∈ (batch_download session folderDl authOk urls outPath fs).1.map
        Prod.fst) ∧
    (batch_download sessPlain (fun _ => true) true
        ["https://drive.google.com/file/d/AAA/view",
         "https://example.com/malformed",
         "https://drive.google.com/drive/folders/BBB"] "out" ⟨[], []⟩).1 =
      [("https://drive.google.com/file/d/AAA/view", true),
       ("https://example.com/malformed", false),
       ("https://drive.google.com/drive/folders/BBB", true)] := by
  constructor
  · intro url hu
    unfold batch_download
    exact batch_keys_aux session folderDl authOk outPath urls [] fs url
      (Or.inl hu)
  · decide

/-- Witness for C6: the malformed middle URL is present among the result
keys of the concrete batch. -/
theorem C6_batch_download_total_witness :
    "https://example.com/malformed" ∈
      (batch_download sessPlain (fun _ => true) true
        ["https://drive.google.com/file/d/AAA/view",
         "https://example.com/malformed",
         "https://drive.google.com/drive/folders/BBB"] "out"
        ⟨[], []⟩).1.map Prod.fst :=
  (C6_batch_download_total sessPlain (fun _ => true) true
      ["https://drive.google.com/file/d/AAA/view",
       "https://example.com/malformed",
       "https://drive.google.com/drive/folders/BBB"] "out" ⟨[], []⟩).1
    "https://example.com/malformed" (by decide)

/-- UInt32 order transported to the natural values. -/
theorem ule_iff (a b : UInt32) : a ≤ b ↔ a.toNat ≤ b.toNat := by
  rw [UInt32.le_def, BitVec.le_def]
  exact Iff.rfl

/-- `Char.ofNatAux` evaluates back to the given code point. -/
theorem toNat_ofNatAux (n : Nat) (h : n.isValidChar) :
    (Char.ofNatAux n h).toNat = n := by
  simp only [Char.ofNatAux, Char.toNat, UInt32.toNat]
  have hlt : n < 2 ^ 32 := by
    rcases h with h | ⟨h1, h2⟩ <;> omega
  simp [BitVec.toNat_ofNat, Nat.mod_eq_of_lt hlt]

/-- An upper-case character's code point lies in the ASCII A-Z range. -/
theorem isUpper_toNat (c : Char) (h : c.isUpper = true) :
    65 ≤ c.toNat ∧ c.toNat ≤ 90 := by
  simp only [Char.isUpper, Bool.and_eq_true, decide_eq_true_eq, ge_iff_le] at h
  obtain ⟨h1, h2⟩ := h
  rw [ule_iff] at h1 h2
  have e65 : (65 : UInt32).toNat = 65 := by decide
  have e90 : (90 : UInt32).toNat = 90 := by decide
  rw [e65] at h1
  rw [e90] at h2
  exact ⟨h1, h2⟩

/-- Lower-casing preserves membership in the identifier character class. -/
theorem idChar_lowerChar (c : Char) (h : idChar c = true) :
    idChar (lowerChar c) = true := by
  unfold lowerChar
  by_cases hu : c.isUpper = true
  · rw [if_pos hu]
    obtain ⟨h1, h2⟩ := isUpper_toNat c hu
    have hval : (c.toNat + 32).isValidChar := by
      left; omega
    have ht : (Char.ofNat (c.toNat + 32)).toNat = c.toNat + 32 := by
      unfold Char.ofNat
      rw [dif_pos hval]
      exact toNat_ofNatAux _ _
    have hlow : (Char.ofNat (c.toNat + 32)).isLower = true := by
      simp only [Char.isLower, Bool.and_eq_true, decide_eq_true_eq, ge_iff_le]
      rw [ule_iff, ule_iff]
      have e97 : (97 : UInt32).toNat = 97 := by decide
      have e122 : (122 : UInt32).toNat = 122 := by decide
      rw [e97, e122]
      have hv : (Char.ofNat (c.toNat + 32)).val.toNat = c.toNat + 32 := ht
      constructor <;> omega
    simp [idChar, Char.isAlphanum, Char.isAlpha, hlow]
  · rw [if_neg hu]
    exact h

/-- A literal containing `/` is never a prefix of a run of identifier
characters. -/
theorem isPrefixOf_false_of_slash (lit s : List Char)
    (hc : '/' ∈ lit) (hs : ∀ c ∈ s, idChar c = true) :
    lit.isPrefixOf s = false := by
  cases h : lit.isPrefixOf s
  · rfl
  · have hpre : lit <+: s := List.isPrefixOf_iff_prefix.mp h
    have := hs '/' (hpre.subset hc)
    exact absurd this (by decide)

/-- A prefix test only inspects the first `lit.length` characters. -/
theorem isPrefixOf_append_of_le (lit : List Char) :
    ∀ ys zs : List Char, lit.length ≤ ys.length →
    lit.isPrefixOf (ys ++ zs) = lit.isPrefixOf ys := by
  induction lit with
  | nil => intro ys zs _; cases ys <;> cases zs <;> rfl
  | cons l lt ih =>
    intro ys zs h
    cases ys with
    | nil => simp at h
    | cons y yt =>
      simp only [List.cons_append, List.isPrefixOf, List.append_eq]
      rw [ih yt zs (by simpa using h)]

/-- When the remaining window is shorter than a literal whose every suffix
contains `/`, the prefix test fails against identifier characters. -/
theorem isPrefixOf_short_slash (ys : List Char) :
    ∀ (lit zs : List Char), ys.length < lit.length →
    (∀ k < lit.length, '/' ∈ lit.drop k) →
    (∀ c ∈ zs, idChar c = true) →
    lit.isPrefixOf (ys ++ zs) = false := by
  induction ys with
  | nil =>
    intro lit zs hlen hsl hzs
    exact isPrefixOf_false_of_slash lit zs (by simpa using hsl 0 (by omega)) hzs
  | cons y yt ih =>
    intro lit zs hlen hsl hzs
    cases lit with
    | nil => simp at hlen
    | cons l lt =>
      simp only [List.cons_append, List.isPrefixOf]
      cases he : l == y
      · rfl
      · simp only [Bool.true_and]
        apply ih lt zs (by simpa using hlen) ?_ hzs
        intro k hk
        have := hsl (k + 1) (by simpa using Nat.succ_lt_succ hk)
        simpa using this

/-- The identifier-capturing search finds nothing inside a pure run of
identifier characters when the literal contains `/`. -/
theorem findLitId_all_idChar (lit : List Char) (hc : '/' ∈ lit) :
    ∀ s : List Char, (∀ c ∈ s, idChar c = true) → findLitId lit s = none := by
  intro s
  induction s with
  | nil => intro _; rfl
  | cons c rest ih =>
    intro hs
    have hp := isPrefixOf_false_of_slash lit (c :: rest) hc hs
    unfold findLitId
    simp only [hp, Bool.false_eq_true, if_false]
    exact ih fun x hx => hs x (by simp [hx])

/-- Scanning a concrete region with no literal occurrence followed by a run
of identifier characters finds nothing. -/
theorem findLitId_append_none (lit : List Char) (hlit : lit ≠ [])
    (hsl : ∀ k < lit.length, '/' ∈ lit.drop k) :
    ∀ (xs zs : List Char), (∀ c ∈ zs, idChar c = true) →
    (∀ i < xs.length, lit.isPrefixOf (xs.drop i) = false) →
    findLitId lit (xs ++ zs) = none := by
  intro xs
  induction xs with
  | nil =>
    intro zs hzs _
    have hc : '/' ∈ lit := by
      have := hsl 0 (by cases lit <;> simp_all)
      simpa using this
    exact findLitId_all_idChar lit hc zs hzs
  | cons x xt ih =>
    intro zs hzs hocc
    have hp : lit.isPrefixOf (x :: (xt ++ zs)) = false := by
      by_cases hl : lit.length ≤ (x :: xt).length
      · rw [show x :: (xt ++ zs) = (x :: xt) ++ zs from rfl]
        rw [isPrefixOf_append_of_le lit (x :: xt) zs hl]
        exact hocc 0 (by simp)
      · rw [show x :: (xt ++ zs) = (x :: xt) ++ zs from rfl]
        exact isPrefixOf_short_slash (x :: xt) lit zs (by omega) hsl hzs
    rw [show (x :: xt) ++ zs = x :: (xt ++ zs) from rfl]
    unfold findLitId
    simp only [hp, Bool.false_eq_true, if_false]
    apply ih zs hzs
    intro i hi
    have := hocc (i + 1) (by simpa using Nat.succ_lt_succ hi)
    simpa using this

/-- Scanning a concrete region with no earlier literal occurrence, followed
by the literal and a non-empty run of identifier characters ending the
input, captures exactly that run. -/
theorem findLitId_append_match (lit : List Char) (hlit : lit ≠ []) :
    ∀ (xs fid : List Char), (∀ c ∈ fid, idChar c = true) → fid ≠ [] →
    (∀ i < xs.length, lit.isPrefixOf ((xs ++ lit).drop i) = false) →
    findLitId lit (xs ++ (lit ++ fid)) = some fid := by
  intro xs
  induction xs with
  | nil =>
    intro fid hfid hne _
    rw [List.nil_append]
    cases hl : lit with
    | nil => exact absurd hl hlit
    | cons l0 lt =>
      rw [show (l0 :: lt) ++ fid = l0 :: (lt ++ fid) from rfl]
      unfold findLitId
      have hp : (l0 :: lt).isPrefixOf (l0 :: (lt ++ fid)) = true := by
        apply List.isPrefixOf_iff_prefix.mpr
        rw [show l0 :: (lt ++ fid) = (l0 :: lt) ++ fid from rfl]
        exact List.prefix_append _ _
      simp only [hp, if_true]
      rw [show l0 :: (lt ++ fid) = (l0 :: lt) ++ fid from rfl]
      rw [List.drop_left]
      rw [List.takeWhile_eq_self_iff.mpr hfid]
      cases fid with
      | nil => exact absurd rfl hne
      | cons d ds => rfl
  | cons x xt ih =>
    intro fid hfid hne hocc
    have hp : lit.isPrefixOf (x :: (xt ++ (lit ++ fid))) = false := by
      rw [show x :: (xt ++ (lit ++ fid)) = ((x :: xt) ++ lit) ++ fid by simp]
      rw [isPrefixOf_append_of_le lit ((x :: xt) ++ lit) fid (by simp; omega)]
      exact hocc 0 (by simp)
    rw [show (x :: xt) ++ (lit ++ fid) = x :: (xt ++ (lit ++ fid)) from rfl]
    unfold findLitId
    simp only [hp, Bool.false_eq_true, if_false]
    apply ih fid hfid hne
    intro i hi
    have := hocc (i + 1) (by simpa using Nat.succ_lt_succ hi)
    simpa using this

/-- The `[?&]id=` search, scanning a region free of `?` and `&` followed by
`?id=` and a non-empty identifier run ending the input, captures exactly
that run. -/
theorem findQId_append_match :
    ∀ (xs fid : List Char),
    (∀ c ∈ xs, (c == '?') = false ∧ (c == '&') = false) →
    (∀ c ∈ fid, idChar c = true) → fid ≠ [] →
    findQId (xs ++ ('?' :: 'i' :: 'd' :: '=' :: fid)) = some fid := by
  intro xs
  induction xs with
  | nil =>
    intro fid _ hfid hne
    rw [List.nil_append]
    unfold findQId
    simp only [show (('?' : Char) == '?' || ('?' : Char) == '&') = true by decide,
      if_true]
    have hpre : ['i', 'd', '='].isPrefixOf ('i' :: 'd' :: '=' :: fid) = true := by
      apply List.isPrefixOf_iff_prefix.mpr
      exact ⟨fid, rfl⟩
    simp only [hpre, if_true]
    rw [show ('i' :: 'd' :: '=' :: fid).drop 3 = fid from rfl]
    rw [List.takeWhile_eq_self_iff.mpr hfid]
    cases fid with
    | nil => exact absurd rfl hne
    | cons d ds => rfl
  | cons x xt ih =>
    intro fid hxs hfid hne
    obtain ⟨hq, ha⟩ := hxs x (by simp)
    rw [show (x :: xt) ++ ('?' :: 'i' :: 'd' :: '=' :: fid) =
        x :: (xt ++ ('?' :: 'i' :: 'd' :: '=' :: fid)) from rfl]
    unfold findQId
    simp only [hq, ha, Bool.or_self, Bool.false_eq_true, if_false]
    exact ih fid (fun c hc => hxs c (by simp [hc])) hfid hne

/-- The substring test fails on a pure run of identifier characters when
the pattern contains `/`. -/
theorem hasSub_all_idChar (pat : List Char) (hc : '/' ∈ pat) :
    ∀ s : List Char, (∀ c ∈ s, idChar c = true) → hasSub pat s = false := by
  intro s
  induction s with
  | nil =>
    intro _
    cases pat with
    | nil => simp at hc
    | cons a l => rfl
  | cons c rest ih =>
    intro hs
    have hp := isPrefixOf_false_of_slash pat (c :: rest) hc hs
    unfold hasSub
    simp only [hp, Bool.false_or]
    exact ih fun x hx => hs x (by simp [hx])

/-- The substring test fails on a concrete region with no pattern
occurrence followed by a run of identifier characters, for a pattern whose
every suffix contains `/`. -/
theorem hasSub_append_none (pat : List Char) (hpat : pat ≠ [])
    (hsl : ∀ k < pat.length, '/' ∈ pat.drop k) :
    ∀ (xs zs : List Char), (∀ c ∈ zs, idChar c = true) →
    (∀ i < xs.length, pat.isPrefixOf (xs.drop i) = false) →
    hasSub pat (xs ++ zs) = false := by
  intro xs
  induction xs with
  | nil =>
    intro zs hzs _
    have hc : '/' ∈ pat := by
      have := hsl 0 (by cases pat <;> simp_all)
      simpa using this
    exact hasSub_all_idChar pat hc zs hzs
  | cons x xt ih =>
    intro zs hzs hocc
    have hp : pat.isPrefixOf (x :: (xt ++ zs)) = false := by
      by_cases hl : pat.length ≤ (x :: xt).length
      · rw [show x :: (xt ++ zs) = (x :: xt) ++ zs from rfl]
        rw [isPrefixOf_append_of_le pat (x :: xt) zs hl]
        exact hocc 0 (by simp)
      · rw [show x :: (xt ++ zs) = (x :: xt) ++ zs from rfl]
        exact isPrefixOf_short_slash (x :: xt) pat zs (by omega) hsl hzs
    rw [show (x :: xt) ++ zs = x :: (xt ++ zs) from rfl]
    unfold hasSub
    simp only [hp, Bool.false_or]
    apply ih zs hzs
    intro i hi
    have := hocc (i + 1) (by simpa using Nat.succ_lt_succ hi)
    simpa using this

/-- A substring found in the left part is found in the whole. -/
theorem hasSub_append_left (pat : List Char) :
    ∀ xs zs : List Char, hasSub pat xs = true →
    hasSub pat (xs ++ zs) = true := by
  intro xs
  induction xs with
  | nil =>
    intro zs h
    have hp : pat = [] := by
      cases pat with
      | nil => rfl
      | cons a l => simp [hasSub] at h
    subst hp
    cases zs with
    | nil => rfl
    | cons z zt => simp [hasSub, List.isPrefixOf]
  | cons x xt ih =>
    intro zs h
    unfold hasSub at h
    rw [show (x :: xt) ++ zs = x :: (xt ++ zs) from rfl]
    unfold hasSub
    cases hor : pat.isPrefixOf (x :: xt)
    · rw [hor] at h
      simp only [Bool.false_or] at h
      simp [ih zs h]
    · have hpre : pat <+: (x :: (xt ++ zs)) := by
        have h1 := List.isPrefixOf_iff_prefix.mp hor
        rw [show x :: (xt ++ zs) = (x :: xt) ++ zs from rfl]
        exact h1.trans (List.prefix_append _ _)
      simp [List.isPrefixOf_iff_prefix.mpr hpre]

set_option maxHeartbeats 2000000 in
/-- Claim C4: classification of Drive URLs.  Whenever no pattern extracts
an identifier the call fails (UnrecognizedUrl, classify = none); whenever
one does, the kind is Folder exactly when the URL carries a folder marker
segment.  Concretely, for every non-empty identifier over `[a-zA-Z0-9_-]`,
a folder-view URL classifies as that identifier with kind Folder, a
file-view URL and an open?id= URL classify as that identifier with kind
File, and a URL matching no pattern classifies as none. -/
theorem C4_url_classification (fid : String) (hne : fid.data ≠ [])
    (hid : ∀ c ∈ fid.data, idChar c = true) :
    (∀ url, extract_file_id url = none → classify url = none) ∧
    (∀ url i, extract_file_id url = some i →
      classify url = some (i, if is_folder url then Kind.Folder else Kind.File)) ∧
    classify ("https://drive.google.com/drive/folders/" ++ fid) =
      some (fid, Kind.Folder) ∧
    classify ("https://drive.google.com/file/d/" ++ fid) =
      some (fid, Kind.File) ∧
    classify ("https://drive.google.com/open?id=" ++ fid) =
      some (fid, Kind.File) ∧
    classify "https://example.com/no-resource" = none := by
  have hzs : ∀ c ∈ fid.data.map lowerChar, idChar c = true := by
    intro c hc
    obtain ⟨a, ha, rfl⟩ := List.mem_map.mp hc
    exact idChar_lowerChar a (hid a ha)
  refine ⟨?_, ?_, ?_, ?_, ?_, by decide⟩
  · intro url h
    simp [classify, h]
  · intro url i h
    simp [classify, h]
  · -- folder-view URL
    have hA : findLitId "/file/d/".data
        ("https://drive.google.com/drive/folders/" ++ fid).data = none := by
      show findLitId "/file/d/".data
        ("https://drive.google.com/drive/folders/".data ++ fid.data) = none
      exact findLitId_append_none "/file/d/".data (by decide) (by decide)
        _ _ hid (by decide)
    have hB : findLitId "/folders/".data
        ("https://drive.google.com/drive/folders/" ++ fid).data
        = some fid.data := by
      show findLitId "/folders/".data
        ("https://drive.google.com/drive/folders/".data ++ fid.data)
        = some fid.data
      rw [show "https://drive.google.com/drive/folders/".data =
          "https://drive.google.com/drive".data ++ "/folders/".data by decide,
        List.append_assoc]
      exact findLitId_append_match "/folders/".data (by decide)
        _ _ hid hne (by decide)
    have hext : extract_file_id
        ("https://drive.google.com/drive/folders/" ++ fid) = some fid := by
      unfold extract_file_id
      rw [hA, hB]
    have hisf : is_folder
        ("https://drive.google.com/drive/folders/" ++ fid) = true := by
      unfold is_folder
      have h1 : strIn "/folders/"
          (pyLower ("https://drive.google.com/drive/folders/" ++ fid)) = true := by
        unfold strIn pyLower
        show hasSub "/folders/".data
          (("https://drive.google.com/drive/folders/".data ++ fid.data).map
            lowerChar) = true
        rw [List.map_append]
        apply hasSub_append_left
        decide
      rw [h1]
      rfl
    unfold classify
    rw [hext, hisf]
    rfl
  · -- file-view URL
    have hA : findLitId "/file/d/".data
        ("https://drive.google.com/file/d/" ++ fid).data = some fid.data := by
      show findLitId "/file/d/".data
        ("https://drive.google.com/file/d/".data ++ fid.data) = some fid.data
      rw [show "https://drive.google.com/file/d/".data =
          "https://drive.google.com".data ++ "/file/d/".data by decide,
        List.append_assoc]
      exact findLitId_append_match "/file/d/".data (by decide)
        _ _ hid hne (by decide)
    have hext : extract_file_id
        ("https://drive.google.com/file/d/" ++ fid) = some fid := by
      unfold extract_file_id
      rw [hA]
    have hisf : is_folder
        ("https://drive.google.com/file/d/" ++ fid) = false := by
      unfold is_folder
      have h1 : strIn "/folders/"
          (pyLower ("https://drive.google.com/file/d/" ++ fid)) = false := by
        unfold strIn pyLower
        show hasSub "/folders/".data
          (("https://drive.google.com/file/d/".data ++ fid.data).map
            lowerChar) = false
        rw [List.map_append,
          show "https://drive.google.com/file/d/".data.map lowerChar =
            "https://drive.google.com/file/d/".data by decide]
        exact hasSub_append_none "/folders/".data (by decide) (by decide)
          _ _ hzs (by decide)
      have h2 : strIn "/drive/folders/"
          (pyLower ("https://drive.google.com/file/d/" ++ fid)) = false := by
        unfold strIn pyLower
        show hasSub "/drive/folders/".data
          (("https://drive.google.com/file/d/".data ++ fid.data).map
            lowerChar) = false
        rw [List.map_append,
          show "https://drive.google.com/file/d/".data.map lowerChar =
            "https://drive.google.com/file/d/".data by decide]
        exact hasSub_append_none "/drive/folders/".data (by decide) (by decide)
          _ _ hzs (by decide)
      rw [h1, h2]
      rfl
    unfold classify
    rw [hext, hisf]
    rfl
  · -- open?id= URL
    have hA : findLitId "/file/d/".data
        ("https://drive.google.com/open?id=" ++ fid).data = none := by
      show findLitId "/file/d/".data
        ("https://drive.google.com/open?id=".data ++ fid.data) = none
      exact findLitId_append_none "/file/d/".data (by decide) (by decide)
        _ _ hid (by decide)
    have hB : findLitId "/folders/".data
        ("https://drive.google.com/open?id=" ++ fid).data = none := by
      show findLitId "/folders/".data
        ("https://drive.google.com/open?id=".data ++ fid.data) = none
      exact findLitId_append_none "/folders/".data (by decide) (by decide)
        _ _ hid (by decide)
    have hC : findQId
        ("https://drive.google.com/open?id=" ++ fid).data = some fid.data := by
      show findQId
        ("https://drive.google.com/open?id=".data ++ fid.data) = some fid.data
      rw [show "https://drive.google.com/open?id=".data =
          "https://drive.google.com/open".data ++ ['?', 'i', 'd', '='] by decide,
        List.append_assoc]
      exact findQId_append_match _ _ (by decide) hid hne
    have hext : extract_file_id
        ("https://drive.google.com/open?id=" ++ fid) = some fid := by
      unfold extract_file_id
      rw [hA, hB, hC]
    have hisf : is_folder
        ("https://drive.google.com/open?id=" ++ fid) = false := by
      unfold is_folder
      have h1 : strIn "/folders/"
          (pyLower ("https://drive.google.com/open?id=" ++ fid)) = false := by
        unfold strIn pyLower
        show hasSub "/folders/".data
          (("https://drive.google.com/open?id=".data ++ fid.data).map
            lowerChar) = false
        rw [List.map_append,
          show "https://drive.google.com/open?id=".data.map lowerChar =
            "https://drive.google.com/open?id=".data by decide]
        exact hasSub_append_none "/folders/".data (by decide) (by decide)
          _ _ hzs (by decide)
      have h2 : strIn "/drive/folders/"
          (pyLower ("https://drive.google.com/open?id=" ++ fid)) = false := by
        unfold strIn pyLower
        show hasSub "/drive/folders/".data
          (("https://drive.google.com/open?id=".data ++ fid.data).map
            lowerChar) = false
        rw [List.map_append,
          show "https://drive.google.com/open?id=".data.map lowerChar =
            "https://drive.google.com/open?id=".data by decide]
        exact hasSub_append_none "/drive/folders/".data (by decide) (by decide)
          _ _ hzs (by decide)
      rw [h1, h2]
      rfl
    unfold classify
    rw [hext, hisf]
    rfl

/-- Witness for C4 at the concrete identifier `abc_123-X`. -/
theorem C4_url_classification_witness :
    classify ("https://drive.google.com/drive/folders/" ++ "abc_123-X") =
      some ("abc_123-X", Kind.Folder) ∧
    classify ("https://drive.google.com/file/d/" ++ "abc_123-X") =
      some ("abc_123-X", Kind.File) ∧
    classify ("https://drive.google.com/open?id=" ++ "abc_123-X") =
      some ("abc_123-X", Kind.File) ∧
    classify "https://example.com/no-resource" = none := by
  have h := C4_url_classification "abc_123-X" (by decide) (by decide)
  exact ⟨h.2.2.1, h.2.2.2.1, h.2.2.2.2.1, h.2.2.2.2.2⟩

/-- Writing a fresh path appends the pair to the file list. -/
theorem fsWrite_not_mem (fs : FS) (p : String) (n : Nat)
    (h : p ∉ fs.files.map Prod.fst) :
    (fsWrite fs p n).files = fs.files ++ [(p, n)] := by
  unfold fsWrite
  have hany : fs.files.any (fun kv => kv.1 == p) = false := by
    rw [List.any_eq_false]
    intro kv hkv
    simp only [beq_iff_eq]
    intro he
    exact h (he ▸ List.mem_map_of_mem Prod.fst hkv)
  rw [hany]
  simp

/-- Under a plainly successful response a single-file download succeeds in
one request, appending the output path and writing the streamed bytes. -/
theorem download_single_file_success (session : String → Response)
    (fid fname outDir : String) (st : DlState) (fs : FS)
    (h : GoodResp (session (ucUrl fid))) :
    download_single_file session fid fname outDir st fs =
      ⟨true,
       { st with
         downloaded_files := st.downloaded_files ++
           [outDir ++ "/" ++ sanitizeName fname],
         total_size := st.total_size + (session (ucUrl fid)).chunks.sum },
       fsWrite fs (outDir ++ "/" ++ sanitizeName fname)
         (session (ucUrl fid)).chunks.sum,
       [ucUrl fid]⟩ := by
  obtain ⟨h1, h2, h3, h4⟩ := h
  have hneg : negotiate session fid (session (ucUrl fid)) =
      (session (ucUrl fid), [ucUrl fid]) := by
    unfold negotiate
    simp [h2]
  unfold download_single_file
  simp [h1, hneg, h3, h4]

/-- Filtering the stubbed listing of a node to non-folders keeps exactly
the file entries. -/
theorem nodeItems_filter (files : List (String × String)) (subs : List RTree) :
    (nodeItems files subs).filter (fun e => !e.isFolder) =
      files.map fun f =>
        ListingEntry.mk f.1 f.2 "application/octet-stream" 0 false := by
  unfold nodeItems
  rw [List.filter_append]
  have h1 : (files.map fun f =>
      ListingEntry.mk f.1 f.2 "application/octet-stream" 0 false).filter
        (fun e => !e.isFolder) =
      files.map fun f =>
        ListingEntry.mk f.1 f.2 "application/octet-stream" 0 false := by
    apply List.filter_eq_self.mpr
    intro e he
    obtain ⟨f, _, rfl⟩ := List.mem_map.mp he
    rfl
  have h2 : (subs.map fun s =>
      ListingEntry.mk s.id s.name folderMime 0 true).filter
        (fun e => !e.isFolder) = [] := by
    apply List.filter_eq_nil_iff.mpr
    intro e he
    obtain ⟨s, _, rfl⟩ := List.mem_map.mp he
    simp
  rw [h1, h2, List.append_nil]

/-- The per-folder file loop under a fully successful session: appends
every file's output path to the downloaded list, leaves the failed list
unchanged, and writes exactly those fresh paths. -/
theorem files_fold_spec (session : String → Response) (dir : String)
    (hsess : ∀ f, GoodResp (session (ucUrl f))) :
    ∀ (files : List (String × String)) (st : DlState) (fs : FS),
    (∀ nm ∈ files.map Prod.snd, sanitizeName nm = nm) →
    (∀ p ∈ files.map (fun f => dir ++ "/" ++ f.2), p ∉ fs.files.map Prod.fst) →
    (files.map (fun f => dir ++ "/" ++ f.2)).Nodup →
    ((files.map fun f =>
        ListingEntry.mk f.1 f.2 "application/octet-stream" 0 false).foldl
      (fun acc e =>
        let r := download_single_file session e.id e.name dir acc.1 acc.2
        (r.st, r.fs)) (st, fs)).1.downloaded_files
      = st.downloaded_files ++ files.map (fun f => dir ++ "/" ++ f.2) ∧
    ((files.map fun f =>
        ListingEntry.mk f.1 f.2 "application/octet-stream" 0 false).foldl
      (fun acc e =>
        let r := download_single_file session e.id e.name dir acc.1 acc.2
        (r.st, r.fs)) (st, fs)).1.failed_files = st.failed_files ∧
    ((files.map fun f =>
        ListingEntry.mk f.1 f.2 "application/octet-stream" 0 false).foldl
      (fun acc e =>
        let r := download_single_file session e.id e.name dir acc.1 acc.2
        (r.st, r.fs)) (st, fs)).2.files.map Prod.fst
      = fs.files.map Prod.fst ++ files.map (fun f => dir ++ "/" ++ f.2) := by
  intro files
  induction files with
  | nil => intro st fs _ _ _; simp
  | cons f ft ih =>
    intro st fs hsafe hdisj hnodup
    have hsf : sanitizeName f.2 = f.2 := hsafe f.2 (by simp)
    have hfresh : dir ++ "/" ++ f.2 ∉ fs.files.map Prod.fst :=
      hdisj (dir ++ "/" ++ f.2) (by simp)
    have hstep := download_single_file_success session f.1 f.2 dir st fs
      (hsess f.1)
    rw [hsf] at hstep
    simp only [List.map_cons, List.foldl_cons]
    rw [hstep]
    have hfs' := fsWrite_not_mem fs (dir ++ "/" ++ f.2)
      (session (ucUrl f.1)).chunks.sum hfresh
    have hih := ih
      { st with
        downloaded_files := st.downloaded_files ++ [dir ++ "/" ++ f.2],
        total_size := st.total_size + (session (ucUrl f.1)).chunks.sum }
      (fsWrite fs (dir ++ "/" ++ f.2) (session (ucUrl f.1)).chunks.sum)
      (fun nm hnm => hsafe nm (by simp [hnm]))
      ?_ ?_
    · obtain ⟨hh1, hh2, hh3⟩ := hih
      refine ⟨?_, hh2, ?_⟩
      · rw [hh1]
        simp
      · rw [hh3, hfs']
        simp
    · intro p hp
      rw [hfs']
      simp only [List.map_append, List.mem_append]
      push_neg
      constructor
      · exact hdisj p (by simp [hp])
      · simp only [List.map_cons, List.map_nil, List.mem_singleton]
        intro he
        rw [List.map_cons, List.nodup_cons] at hnodup
        exact hnodup.1 (he ▸ hp)
    · rw [List.map_cons, List.nodup_cons] at hnodup
      exact hnodup.2

/-- Creating a directory leaves the file list unchanged. -/
theorem fsMkdir_files (fs : FS) (d : String) : (fsMkdir fs d).files = fs.files := by
  unfold fsMkdir
  split <;> rfl

mutual

/-- Traversal specification under a fully successful session: the
downloaded list grows by exactly the remote relative paths of the tree (in
traversal order), the failed list is unchanged, and the file system gains
exactly those paths. -/
theorem walk_tree_spec (session : String → Response) (out : String)
    (hsess : ∀ f, GoodResp (session (ucUrl f))) :
    ∀ (t : RTree) (cur : String) (st : DlState) (fs : FS),
    (∀ nm ∈ treeFileNames t, sanitizeName nm = nm) →
    (∀ p ∈ remotePaths out t cur, p ∉ fs.files.map Prod.fst) →
    (remotePaths out t cur).Nodup →
    (download_folder_recursive session out t cur st fs).2.1.downloaded_files
        = st.downloaded_files ++ remotePaths out t cur ∧
    (download_folder_recursive session out t cur st fs).2.1.failed_files
        = st.failed_files ∧
    (download_folder_recursive session out t cur st fs).2.2.files.map Prod.fst
        = fs.files.map Prod.fst ++ remotePaths out t cur
  | RTree.node i n files subs, cur, st, fs => by
    intro hsafe hdisj hnodup
    by_cases hempty : (nodeItems files subs).isEmpty = true
    · have hfs : files = [] ∧ subs = [] := by
        unfold nodeItems at hempty
        cases files <;> cases subs <;> simp_all
      obtain ⟨rfl, rfl⟩ := hfs
      unfold download_folder_recursive
      simp [nodeItems, remotePaths, remotePathsList, fsMkdir_files]
    · have hemp' : (nodeItems files subs).isEmpty = false :=
        Bool.eq_false_iff.mpr hempty
      have hpaths : remotePaths out (RTree.node i n files subs) cur =
          (files.map fun f =>
            (if cur == "" then out else out ++ "/" ++ cur) ++ "/" ++ f.2)
          ++ remotePathsList out cur subs := rfl
      rw [hpaths] at hdisj hnodup
      rw [List.nodup_append] at hnodup
      obtain ⟨hnodF, hnodS, hdisjFS⟩ := hnodup
      have hsafeF : ∀ nm ∈ files.map Prod.snd, sanitizeName nm = nm := by
        intro nm hnm
        exact hsafe nm (by
          unfold treeFileNames
          exact List.mem_append_left _ hnm)
      have hdisjF : ∀ p ∈ files.map fun f =>
          (if cur == "" then out else out ++ "/" ++ cur) ++ "/" ++ f.2,
          p ∉ (fsMkdir fs (if cur == "" then out else out ++ "/" ++ cur)).files.map
            Prod.fst := by
        intro p hp
        rw [fsMkdir_files]
        exact hdisj p (List.mem_append_left _ hp)
      obtain ⟨hf1, hf2, hf3⟩ := files_fold_spec session
        (if cur == "" then out else out ++ "/" ++ cur) hsess files st
        (fsMkdir fs (if cur == "" then out else out ++ "/" ++ cur))
        hsafeF hdisjF hnodF
      have hsafeS : ∀ nm ∈ forestFileNames subs, sanitizeName nm = nm := by
        intro nm hnm
        exact hsafe nm (by
          unfold treeFileNames
          exact List.mem_append_right _ hnm)
      have hdisjS : ∀ p ∈ remotePathsList out cur subs,
          p ∉ (((files.map fun f =>
              ListingEntry.mk f.1 f.2 "application/octet-stream" 0 false).foldl
            (fun acc e =>
              let r := download_single_file session e.id e.name
                (if cur == "" then out else out ++ "/" ++ cur) acc.1 acc.2
              (r.st, r.fs))
            (st, fsMkdir fs
              (if cur == "" then out else out ++ "/" ++ cur))).2.files.map
            Prod.fst) := by
        intro p hp
        rw [hf3, fsMkdir_files]
        simp only [List.mem_append]
        push_neg
        constructor
        · exact hdisj p (List.mem_append_right _ hp)
        · intro hmem
          exact hdisjFS hmem hp
      obtain ⟨hw1, hw2, hw3⟩ := walk_forest_spec session out hsess subs cur
        ((files.map fun f =>
            ListingEntry.mk f.1 f.2 "application/octet-stream" 0 false).foldl
          (fun acc e =>
            let r := download_single_file session e.id e.name
              (if cur == "" then out else out ++ "/" ++ cur) acc.1 acc.2
            (r.st, r.fs))
          (st, fsMkdir fs (if cur == "" then out else out ++ "/" ++ cur))).1
        ((files.map fun f =>
            ListingEntry.mk f.1 f.2 "application/octet-stream" 0 false).foldl
          (fun acc e =>
            let r := download_single_file session e.id e.name
              (if cur == "" then out else out ++ "/" ++ cur) acc.1 acc.2
            (r.st, r.fs))
          (st, fsMkdir fs (if cur == "" then out else out ++ "/" ++ cur))).2
        hsafeS hdisjS hnodS
      unfold download_folder_recursive
      simp only [hemp', Bool.false_eq_true, if_false, nodeItems_filter]
      refine ⟨?_, ?_, ?_⟩
      · rw [hw1, hf1, hpaths, List.append_assoc]
      · rw [hw2, hf2]
      · rw [hw3, hf3, fsMkdir_files, hpaths, List.append_assoc]

/-- Forest version of `walk_tree_spec` for the subfolder loop. -/
theorem walk_forest_spec (session : String → Response) (out : String)
    (hsess : ∀ f, GoodResp (session (ucUrl f))) :
    ∀ (l : List RTree) (cur : String) (st : DlState) (fs : FS),
    (∀ nm ∈ forestFileNames l, sanitizeName nm = nm) →
    (∀ p ∈ remotePathsList out cur l, p ∉ fs.files.map Prod.fst) →
    (remotePathsList out cur l).Nodup →
    (walkSubfolders session out cur l st fs).1.downloaded_files
        = st.downloaded_files ++ remotePathsList out cur l ∧
    (walkSubfolders session out cur l st fs).1.failed_files = st.failed_files ∧
    (walkSubfolders session out cur l st fs).2.files.map Prod.fst
        = fs.files.map Prod.fst ++ remotePathsList out cur l
  | [], cur, st, fs => by
    intro _ _ _
    simp [walkSubfolders, remotePathsList]
  | t :: rest, cur, st, fs => by
    intro hsafe hdisj hnodup
    have hpaths : remotePathsList out cur (t :: rest) =
        remotePaths out t (if cur == "" then t.name else cur ++ "/" ++ t.name)
        ++ remotePathsList out cur rest := rfl
    rw [hpaths] at hdisj hnodup
    rw [List.nodup_append] at hnodup
    obtain ⟨hnodT, hnodR, hdisjTR⟩ := hnodup
    obtain ⟨ht1, ht2, ht3⟩ := walk_tree_spec session out hsess t
      (if cur == "" then t.name else cur ++ "/" ++ t.name) st fs
      (fun nm hnm => hsafe nm (by
        unfold forestFileNames
        exact List.mem_append_left _ hnm))
      (fun p hp => hdisj p (List.mem_append_left _ hp)) hnodT
    have hdisjR : ∀ p ∈ remotePathsList out cur rest,
        p ∉ ((download_folder_recursive session out t
          (if cur == "" then t.name else cur ++ "/" ++ t.name)
          st fs).2.2.files.map Prod.fst) := by
      intro p hp
      rw [ht3]
      simp only [List.mem_append]
      push_neg
      constructor
      · exact hdisj p (List.mem_append_right _ hp)
      · intro hmem
        exact hdisjTR hmem hp
    obtain ⟨hr1, hr2, hr3⟩ := walk_forest_spec session out hsess rest cur
      (download_folder_recursive session out t
        (if cur == "" then t.name else cur ++ "/" ++ t.name) st fs).2.1
      (download_folder_recursive session out t
        (if cur == "" then t.name else cur ++ "/" ++ t.name) st fs).2.2
      (fun nm hnm => hsafe nm (by
        unfold forestFileNames
        exact List.mem_append_right _ hnm))
      hdisjR hnodR
    unfold walkSubfolders
    refine ⟨?_, ?_, ?_⟩
    · rw [hr1, ht1, hpaths, List.append_assoc]
    · rw [hr2, ht2]
    · rw [hr3, ht3, hpaths, List.append_assoc]

end

mutual

/-- There are as many remote relative paths as files in a tree. -/
theorem remotePaths_length (out : String) :
    ∀ (t : RTree) (cur : String),
    (remotePaths out t cur).length = countFiles t
  | RTree.node i n files subs, cur => by
    unfold remotePaths countFiles
    simp [remotePathsList_length out subs cur]

/-- Forest version of `remotePaths_length`. -/
theorem remotePathsList_length (out : String) :
    ∀ (l : List RTree) (cur : String),
    (remotePathsList out cur l).length = countFilesList l
  | [], cur => rfl
  | t :: rest, cur => by
    unfold remotePathsList countFilesList
    simp [remotePaths_length out t, remotePathsList_length out rest cur]

end

/-- Claim C1: for every folder tree in which every listing call and every
file download is stubbed to succeed (session stubbed with plainly
successful responses), `download_folder_recursive` starting from empty
accumulators and an empty file system materializes exactly N = countFiles
local files whose paths are the remote relative paths (subfolder names
joined under the output root), with `len(downloaded_files) = N` and
`len(failed_files) = 0`.  The display names are assumed filesystem-safe
(sanitisation is the identity) and the remote paths distinct, as the
claim's path-matching presupposes. -/
theorem C1_folder_roundtrip (session : String → Response) (out : String)
    (t : RTree) (hsess : ∀ f, GoodResp (session (ucUrl f)))
    (hsafe : ∀ nm ∈ treeFileNames t, sanitizeName nm = nm)
    (hnodup : (remotePaths out t "").Nodup) :
    (download_folder_recursive session out t "" ⟨[], [], 0⟩
        ⟨[], []⟩).2.1.downloaded_files = remotePaths out t "" ∧
    (download_folder_recursive session out t "" ⟨[], [], 0⟩
        ⟨[], []⟩).2.1.failed_files = [] ∧
    (download_folder_recursive session out t "" ⟨[], [], 0⟩
        ⟨[], []⟩).2.1.downloaded_files.length = countFiles t ∧
    (download_folder_recursive session out t "" ⟨[], [], 0⟩
        ⟨[], []⟩).2.2.files.map Prod.fst = remotePaths out t "" ∧
    (download_folder_recursive session out t "" ⟨[], [], 0⟩
        ⟨[], []⟩).2.2.files.length = countFiles t := by
  obtain ⟨h1, h2, h3⟩ := walk_tree_spec session out hsess t "" ⟨[], [], 0⟩
    ⟨[], []⟩ hsafe (by intro p _; simp) hnodup
  simp only [List.nil_append] at h1
  have h3' : (download_folder_recursive session out t "" ⟨[], [], 0⟩
      ⟨[], []⟩).2.2.files.map Prod.fst = remotePaths out t "" := by
    rw [h3]
    rfl
  refine ⟨h1, h2, ?_, h3', ?_⟩
  · rw [h1, remotePaths_length]
  · have := congrArg List.length h3'
    rw [List.length_map] at this
    rw [this, remotePaths_length]

/-- Witness for C1 on a concrete 3-file tree with one nested subfolder. -/
theorem C1_folder_roundtrip_witness :
    (download_folder_recursive sessPlain "out" tinyTree "" ⟨[], [], 0⟩
        ⟨[], []⟩).2.1.downloaded_files =
      ["out/a.txt", "out/b.txt", "out/s/c.txt"] ∧
    (download_folder_recursive sessPlain "out" tinyTree "" ⟨[], [], 0⟩
        ⟨[], []⟩).2.1.failed_files = [] ∧
    (download_folder_recursive sessPlain "out" tinyTree "" ⟨[], [], 0⟩
        ⟨[], []⟩).2.2.files.length = 3 := by
  have h := C1_folder_roundtrip sessPlain "out" tinyTree
    (fun f => ⟨rfl,
      (by decide : strIn "text/html" (pyLower plainOk.contentType) = false),
      rfl, (by decide : 0 < plainOk.chunks.sum)⟩)
    (by decide) (by decide)
  refine ⟨?_, h.2.1, ?_⟩
  · rw [h.1]
    decide
  · rw [h.2.2.2.2]
    decide


end DriveSpec
